import Mathlib

/-!
# Snes9xFX menu layer (`source/menu.cpp`)

A shallow embedding of the menu code of the emulator front end, and the
properties of it that the specification states.

Conventions of the embedding:

* a C string is the list of the bytes of its buffer; memory behind the end of
  the list reads as NUL, and the string ends at the first NUL byte;
* C `int`s are `Int`s; an increment wraps to 32 bits (`incr32`);
* one pass through the body of a screen's polling loop is a function of the
  widget states that the pass reads (`...Poll` structures) and of the values
  that the external calls of the pass return; the external calls a pass makes
  are recorded, in order, in a list of events;
* the save-state codec and the timing model of the emulator core are not part
  of `menu.cpp`: their definitions follow the specification and say so.
-/

namespace Snes9xFX

/-! ## C strings and the C library functions used by `FindGameSaveNum` -/

/-- The byte `s[i]` of a C buffer; bytes behind the end of the list are NUL. -/
def charAt (s : List Nat) (i : Nat) : Nat := s.getD i 0

/-- The contents of a C string: the bytes in front of the first NUL. -/
def cstr (s : List Nat) : List Nat := s.takeWhile (fun c => c != 0)

/-- C `strlen`: the number of bytes in front of the first NUL. -/
def strlen (s : List Nat) : Nat := (cstr s).length

/-- C `strncmp(a, b, n)`: compares at most `n` bytes, stops behind a NUL, and
returns the difference of the first two bytes that differ (0 if none do). -/
def strncmp : List Nat → List Nat → Nat → Int
  | _, _, 0 => 0
  | a, b, n + 1 =>
    let ca := a.headD 0
    let cb := b.headD 0
    if ca ≠ cb then (ca : Int) - (cb : Int)
    else if ca = 0 then 0
    else strncmp a.tail b.tail n

/-- C `isspace` in the "C" locale: space, and `\t \n \v \f \r`. -/
def isspace (c : Nat) : Bool := c == 32 || (9 ≤ c && c ≤ 13)

/-- C `isdigit`. -/
def isdigit (c : Nat) : Bool := 48 ≤ c && c ≤ 57

/-- The digit loop of `atoi`: accumulates decimal digits and stops at the
first byte that is not a digit (the terminating NUL included). -/
def atoiDigits : List Nat → Int → Int
  | [], acc => acc
  | c :: cs, acc => if isdigit c then atoiDigits cs (acc * 10 + ((c : Int) - 48)) else acc

/-- C `atoi`: skips leading white space, reads an optional sign and then as
many decimal digits as there are; the value is 0 when there is no digit. -/
def atoi (s : List Nat) : Int :=
  match s.dropWhile isspace with
  | 45 :: r => - atoiDigits r 0
  | 43 :: r => atoiDigits r 0
  | r => atoiDigits r 0

/-- The bytes of the string literal `"Auto"`. -/
def strAuto : List Nat := [65, 117, 116, 111]

/-- The byte of the space character. -/
def chSpace : Nat := 32

/-! ## `FindGameSaveNum` (menu.cpp, lines 1797-1820) -/

/-- `FindGameSaveNum(savefile, device)`. The global `Memory.ROMFilename` and the
constant `MAX_SAVES` (defined outside `menu.cpp`) are parameters. -/
def FindGameSaveNum (MAX_SAVES : Int) (ROMFilename savefile : List Nat) (_device : Int) : Int :=
  let romlen : Nat := strlen ROMFilename
  let savelen : Nat := strlen savefile
  let diff : Int := (savelen : Int) - (romlen : Int)
  if strncmp savefile ROMFilename romlen ≠ 0 then
    -1
  else
    let n : Int :=
      if charAt savefile romlen = chSpace then
        if diff = 5 ∧ strncmp (savefile.drop (romlen + 1)) strAuto 4 = 0 then
          0
        else if diff = 2 ∨ diff = 3 then
          atoi (savefile.drop (romlen + 1))
        else
          -1
      else
        -1
    if 0 ≤ n ∧ n < MAX_SAVES then n else -1

/-- The decimal digits of `k`, as bytes (what `"%i"` prints for `k ≥ 0`). -/
def decimal (k : Nat) : List Nat := (Nat.toDigits 10 k).map Char.toNat

/-! ## Menu codes and screens -/

/-- The menu codes (the enumerators of `menu.h`) that `menu.cpp` names. Every
other `int` takes the `default` branch of the switch of `MainMenu`, as
`MENU_NONE` and `MENU_EXIT` do. -/
inductive Menu
  | MENU_EXIT
  | MENU_NONE
  | MENU_SETTINGS
  | MENU_SETTINGS_FILE
  | MENU_SETTINGS_MENU
  | MENU_SETTINGS_EMULATION
  | MENU_GAMESELECTION
  | MENU_GAME
  | MENU_GAME_SAVE
  | MENU_GAME_LOAD
  | MENU_GAME_DELETE
  | MENU_GAMESETTINGS
  | MENU_GAMESETTINGS_MAPPINGS
  | MENU_GAMESETTINGS_MAPPINGS_CTRL
  | MENU_GAMESETTINGS_MAPPINGS_FASTFORWARD
  | MENU_GAMESETTINGS_MAPPINGS_MAP
  | MENU_GAMESETTINGS_VIDEO
  | MENU_GAMESETTINGS_AUDIO
  | MENU_GAMESETTINGS_CHEATS
  | MENU_GAMESETTINGS_HACKS
  deriving DecidableEq, Repr

open Menu

/-- The screen functions of `menu.cpp` that `MainMenu` calls. -/
inductive Screen
  | MenuGameSelection
  | MenuGame
  | MenuGameSaves (action : Int)
  | MenuGameSettings
  | MenuSettingsMappings
  | MenuSettingsMappingsController
  | MenuSettingsFastForward
  | MenuSettingsMappingsMap
  | MenuSettingsVideo
  | MenuSettingsAudio
  | MenuGameCheats
  | MenuSettingsHacks
  | MenuSettings
  | MenuSettingsFile
  | MenuSettingsMenu
  | MenuSettingsEmulation
  deriving DecidableEq, Repr

/-- The switch of `MainMenu` (lines 4994-5053): the screen function called for
a menu code. -/
def screenOf : Menu → Screen
  | MENU_GAMESELECTION => Screen.MenuGameSelection
  | MENU_GAME => Screen.MenuGame
  | MENU_GAME_LOAD => Screen.MenuGameSaves 0
  | MENU_GAME_SAVE => Screen.MenuGameSaves 1
  | MENU_GAME_DELETE => Screen.MenuGameSaves 2
  | MENU_GAMESETTINGS => Screen.MenuGameSettings
  | MENU_GAMESETTINGS_MAPPINGS => Screen.MenuSettingsMappings
  | MENU_GAMESETTINGS_MAPPINGS_CTRL => Screen.MenuSettingsMappingsController
  | MENU_GAMESETTINGS_MAPPINGS_FASTFORWARD => Screen.MenuSettingsFastForward
  | MENU_GAMESETTINGS_MAPPINGS_MAP => Screen.MenuSettingsMappingsMap
  | MENU_GAMESETTINGS_VIDEO => Screen.MenuSettingsVideo
  | MENU_GAMESETTINGS_AUDIO => Screen.MenuSettingsAudio
  | MENU_GAMESETTINGS_CHEATS => Screen.MenuGameCheats
  | MENU_GAMESETTINGS_HACKS => Screen.MenuSettingsHacks
  | MENU_SETTINGS => Screen.MenuSettings
  | MENU_SETTINGS_FILE => Screen.MenuSettingsFile
  | MENU_SETTINGS_MENU => Screen.MenuSettingsMenu
  | MENU_SETTINGS_EMULATION => Screen.MenuSettingsEmulation
  | _ => Screen.MenuGameSelection

/-- The menu code that the "Go Back" button (`backBtn`) of a screen sets;
`none` for the two screens without such a button. -/
def backBtn : Screen → Option Menu
  | Screen.MenuGameSelection => none
  | Screen.MenuGame => none
  | Screen.MenuGameSaves _ => some MENU_GAME
  | Screen.MenuGameSettings => some MENU_GAME
  | Screen.MenuSettingsMappings => some MENU_GAMESETTINGS
  | Screen.MenuSettingsMappingsController => some MENU_GAMESETTINGS_MAPPINGS
  | Screen.MenuSettingsFastForward => some MENU_GAMESETTINGS_MAPPINGS
  | Screen.MenuSettingsMappingsMap => some MENU_GAMESETTINGS_MAPPINGS_CTRL
  | Screen.MenuSettingsVideo => some MENU_GAMESETTINGS
  | Screen.MenuSettingsAudio => some MENU_GAMESETTINGS
  | Screen.MenuGameCheats => some MENU_GAMESETTINGS
  | Screen.MenuSettingsHacks => some MENU_GAMESETTINGS
  | Screen.MenuSettings => some MENU_GAMESELECTION
  | Screen.MenuSettingsFile => some MENU_SETTINGS
  | Screen.MenuSettingsMenu => some MENU_SETTINGS
  | Screen.MenuSettingsEmulation => some MENU_SETTINGS

/-- One "Go Back" step: from a screen to the screen that `MainMenu` shows for
the code its back button returns. -/
def backStep (s : Screen) : Option Screen := (backBtn s).map screenOf

/-- The screen reached by `n` "Go Back" steps, if there are that many. -/
def backSteps : Nat → Screen → Option Screen
  | 0, s => some s
  | n + 1, s => (backStep s).bind (backSteps n)

/-- The number of "Go Back" steps between a screen and the top of its tree. -/
def backDepth : Screen → Nat
  | Screen.MenuGameSelection => 0
  | Screen.MenuGame => 0
  | Screen.MenuGameSaves _ => 1
  | Screen.MenuGameSettings => 1
  | Screen.MenuSettingsMappings => 2
  | Screen.MenuSettingsMappingsController => 3
  | Screen.MenuSettingsFastForward => 3
  | Screen.MenuSettingsMappingsMap => 4
  | Screen.MenuSettingsVideo => 2
  | Screen.MenuSettingsAudio => 2
  | Screen.MenuGameCheats => 2
  | Screen.MenuSettingsHacks => 2
  | Screen.MenuSettings => 1
  | Screen.MenuSettingsFile => 2
  | Screen.MenuSettingsMenu => 2
  | Screen.MenuSettingsEmulation => 2

/-! ## The screen loop of `MainMenu` (menu.cpp, lines 4992-5061) -/

/-- The variables of the screen loop of `MainMenu`. -/
structure MainState where
  currentMenu : Menu
  lastMenu : Menu
  SNESROMSize : Int
  showCredits : Bool
  deriving DecidableEq, Repr

/-- What one run of a screen function leaves behind: the menu code it
returns, the value of the global `SNESROMSize` after it (a screen may load a
ROM), and whether the logo button is clicked when the screen returns. -/
structure ScreenRun where
  ret : Menu
  romSize : Int
  logoClicked : Bool
  deriving DecidableEq, Repr

/-- The state in which `MainMenu(menu)` enters its screen loop. -/
def MainMenu_init (menu : Menu) (SNESROMSize : Int) (showCredits : Bool) : MainState :=
  { currentMenu := menu, lastMenu := MENU_NONE, SNESROMSize := SNESROMSize,
    showCredits := showCredits }

/-- The condition of the screen loop: `currentMenu != MENU_EXIT || SNESROMSize <= 0`. -/
def MainMenu_cond (s : MainState) : Bool :=
  s.currentMenu != MENU_EXIT || decide (s.SNESROMSize ≤ 0)

/-- The body of the screen loop, given what the screen it calls leaves behind. -/
def MainMenu_body (s : MainState) (r : ScreenRun) : MainState :=
  { currentMenu := r.ret
    lastMenu := r.ret
    SNESROMSize := r.romSize
    showCredits := if r.logoClicked then true else s.showCredits }

/-- The screen loop over the runs of the screens that the user goes through.
The result is the state in which the loop ends together with the screens
shown, in order; `none` when the runs are used up with the loop still going. -/
def MainMenu_loop : List ScreenRun → MainState → List Screen → Option (MainState × List Screen)
  | [], s, shown => if MainMenu_cond s then none else some (s, shown)
  | r :: rs, s, shown =>
    if MainMenu_cond s then
      MainMenu_loop rs (MainMenu_body s r) (shown ++ [screenOf s.currentMenu])
    else some (s, shown)

/-! ## `MenuSettingsHacks` (menu.cpp, lines 3958-4137) -/

/-- Wraps an `Int` to the range of a 32-bit C `int`. -/
def wrap32 (x : Int) : Int := (x + 2147483648) % 4294967296 - 2147483648

/-- C `x++` on an `int` variable (wrapping behind `INT_MAX`). -/
def incr32 (x : Int) : Int := wrap32 (x + 1)

/-- The settings that `MenuSettingsHacks` reads and writes: three fields of
`GCSettings` and the four timing fields of the core `Settings` that `menu.cpp`
names. `SuperFXSpeedPerLine` holds the exact rational value of the C constant
expression assigned to it (`0.417 * 20.5e6` is 417/1000 * 20500000); the
rounding of the floating point arithmetic is not modelled. -/
structure HacksSettings where
  sfxOverclock : Int
  cpuOverclock : Int
  NoSpriteLimit : Int
  SuperFXSpeedPerLine : ℚ
  OneClockCycle : Int
  OneSlowClockCycle : Int
  TwoClockCycles : Int
  deriving DecidableEq

/-- The external functions that a pass of `MenuSettingsHacks` calls. -/
inductive HacksCall
  | S9xResetSuperFX
  | S9xReset
  | TriggerUpdate
  deriving DecidableEq, Repr

/-- A call of an external function, with the settings at the time of the call. -/
structure HacksEvent where
  call : HacksCall
  seen : HacksSettings
  deriving DecidableEq

/-- The switch on `GCSettings.sfxOverclock` of lines 4038-4047: the new value
of `Settings.SuperFXSpeedPerLine`, `none` when no case applies. -/
def sfxSpeedPerLine (level : Int) : Option ℚ :=
  if level = 0 then some 5823405
  else if level = 1 then some ((417 / 1000) * 20500000)
  else if level = 2 then some ((417 / 1000) * 40500000)
  else if level = 3 then some ((417 / 1000) * 60500000)
  else if level = 4 then some ((417 / 1000) * 80500000)
  else if level = 5 then some ((417 / 1000) * 100500000)
  else if level = 6 then some ((417 / 1000) * 120500000)
  else none

/-- Lines 4028-4036: `GCSettings.sfxOverclock++`, and back to 0 behind 6 on the
Wii build (`HW_RVL`), behind 3 on the GameCube build. -/
def sfxNextLevel (wii : Bool) (level : Int) : Int :=
  let level := incr32 level
  if level > (if wii then 6 else 3) then 0 else level

/-- Lines 4053-4056: `GCSettings.cpuOverclock++`, and back to 0 behind 3. -/
def cpuNextLevel (level : Int) : Int :=
  let level := incr32 level
  if level > 3 then 0 else level

/-- Lines 4027-4047 (`case 0`, in front of the two resets): the level is
incremented and wraps to 0 behind 6 (behind 3 on the GameCube build), then the
speed is set from the level. -/
def sfxOverclockUpdate (wii : Bool) (g : HacksSettings) : HacksSettings :=
  let level := sfxNextLevel wii g.sfxOverclock
  match sfxSpeedPerLine level with
  | some v => { g with sfxOverclock := level, SuperFXSpeedPerLine := v }
  | none => { g with sfxOverclock := level }

/-- Lines 4053-4079 (`case 1`): the level is incremented and wraps to 0 behind
3, then the three CPU cycle lengths are set from the level. -/
def cpuOverclockUpdate (g : HacksSettings) : HacksSettings :=
  let level := cpuNextLevel g.cpuOverclock
  let g := { g with cpuOverclock := level }
  if level = 0 then
    { g with OneClockCycle := 6, OneSlowClockCycle := 8, TwoClockCycles := 12 }
  else if level = 1 then
    { g with OneClockCycle := 6, OneSlowClockCycle := 6, TwoClockCycles := 12 }
  else if level = 2 then
    { g with OneClockCycle := 4, OneSlowClockCycle := 5, TwoClockCycles := 6 }
  else if level = 3 then
    { g with OneClockCycle := 3, OneSlowClockCycle := 3, TwoClockCycles := 3 }
  else g

/-- The switch on `ret` of lines 4024-4085: the settings after it and the
external calls it makes. -/
def MenuSettingsHacks_switch (wii : Bool) (ret : Int) (g : HacksSettings) :
    HacksSettings × List HacksEvent :=
  if ret = 0 then
    let g := sfxOverclockUpdate wii g
    (g, [⟨HacksCall.S9xResetSuperFX, g⟩, ⟨HacksCall.S9xReset, g⟩])
  else if ret = 1 then
    (cpuOverclockUpdate g, [])
  else if ret = 2 then
    ({ g with NoSpriteLimit := Int.xor g.NoSpriteLimit 1 }, [])
  else
    (g, [])

/-- The text that lines 4091-4107 write to `options.value[0]`; `none` when
no case applies and the text stays as it is. -/
def sfxOverclockText (level : Int) : Option String :=
  if level = 0 then some "None"
  else if level = 1 then some "20 MHz"
  else if level = 2 then some "40 MHz"
  else if level = 3 then some "60 MHz"
  else if level = 4 then some "80 MHz"
  else if level = 5 then some "100 MHz"
  else if level = 6 then some "120 MHz"
  else none

/-- The text that lines 4109-4119 write to `options.value[1]`. -/
def cpuOverclockText (level : Int) : Option String :=
  if level = 0 then some "None"
  else if level = 1 then some "Low"
  else if level = 2 then some "Medium"
  else if level = 3 then some "Max"
  else none

/-- The local variables of `MenuSettingsHacks` and the settings. -/
structure HacksScreen where
  menu : Menu
  firstRun : Bool
  value0 : String
  value1 : String
  value2 : String
  g : HacksSettings
  deriving DecidableEq

/-- What a pass of the loop of an option screen reads from its widgets: the
option clicked (`GetClickedOption()`, negative when none is) and whether the
"Go Back" button is clicked. -/
structure OptionPoll where
  ret : Int
  backClicked : Bool
  deriving DecidableEq, Repr

/-- The refresh of the option list, lines 4087-4124. -/
def MenuSettingsHacks_refresh (st : HacksScreen) : HacksScreen × List HacksEvent :=
  ({ st with
      firstRun := false
      value0 := (sfxOverclockText st.g.sfxOverclock).getD st.value0
      value1 := (cpuOverclockText st.g.cpuOverclock).getD st.value1
      value2 := if st.g.NoSpriteLimit = 1 then "On" else "Off" },
   [⟨HacksCall.TriggerUpdate, st.g⟩])

/-- One pass through the body of the loop of `MenuSettingsHacks`
(lines 4020-4129): the state after it and the external calls, in order. -/
def MenuSettingsHacks_pass (wii : Bool) (p : OptionPoll) (st : HacksScreen) :
    HacksScreen × List HacksEvent :=
  let sw := MenuSettingsHacks_switch wii p.ret st.g
  let st1 : HacksScreen := { st with g := sw.1 }
  let rf : HacksScreen × List HacksEvent :=
    if p.ret ≥ 0 ∨ st1.firstRun = true then MenuSettingsHacks_refresh st1 else (st1, [])
  let st2 : HacksScreen :=
    if p.backClicked then { rf.1 with menu := MENU_GAMESETTINGS } else rf.1
  (st2, sw.2 ++ rf.2)

/-- The Emulation Hacks screen in its loop with the settings at their
defaults: no overclocking, the speed and the cycle lengths of the hardware. -/
def hacksScreenAtDefaults : HacksScreen :=
  { menu := MENU_NONE, firstRun := false, value0 := "None", value1 := "None", value2 := "Off",
    g := { sfxOverclock := 0, cpuOverclock := 0, NoSpriteLimit := 0,
           SuperFXSpeedPerLine := 5823405,
           OneClockCycle := 6, OneSlowClockCycle := 8, TwoClockCycles := 12 } }

/-! ## `MenuGame` (menu.cpp, lines 1632-1773) -/

/-- The prompts (`WindowPrompt`) of the embedded screens, by their title. -/
inductive Prompt
  | ResetGame
  | PreviewScreenshot
  | QuitGame
  | DeleteFile
  deriving DecidableEq, Repr

/-- The external calls of a pass through the loop of `MenuGame`; a
`WindowPrompt` is recorded with the value it returns. Widget effects and
sounds are left out. -/
inductive GameCall
  | WindowPrompt (title : Prompt) (choice : Int)
  | S9xSoftReset
  | SavePreviewImg
  | PlayerMappingWindow (chan : Nat)
  | ClearScreenshot
  | ExitApp
  deriving DecidableEq, Repr

/-- What a pass through the loop of `MenuGame` reads: the buttons that are
clicked (`GetState() == STATE_CLICKED`), the value that `WindowPrompt` returns
if the pass calls it, and `GCSettings.AutoloadGame`. -/
structure GamePoll where
  saveBtn : Bool
  loadBtn : Bool
  deleteBtn : Bool
  resetBtn : Bool
  screenshotBtn : Bool
  gameSettingsBtn : Bool
  batteryBtn0 : Bool
  batteryBtn1 : Bool
  batteryBtn2 : Bool
  batteryBtn3 : Bool
  mainmenuBtn : Bool
  closeBtn : Bool
  choice : Int
  AutoloadGame : Int
  deriving DecidableEq, Repr

/-- One pass through the chain of button tests of `MenuGame`
(lines 1677-1772), entered with `menu == MENU_NONE`: the value of `menu` after
it and the external calls, in order. The battery buttons exist on the Wii
build only; `ExitApp()` does not return. -/
def MenuGame_pass (wii : Bool) (p : GamePoll) : Menu × List GameCall :=
  if p.saveBtn then (MENU_GAME_SAVE, [])
  else if p.loadBtn then (MENU_GAME_LOAD, [])
  else if p.deleteBtn then (MENU_GAME_DELETE, [])
  else if p.resetBtn then
    if p.choice ≠ 0 then
      (MENU_EXIT, [GameCall.WindowPrompt Prompt.ResetGame p.choice, GameCall.S9xSoftReset])
    else
      (MENU_NONE, [GameCall.WindowPrompt Prompt.ResetGame p.choice])
  else if p.screenshotBtn then
    if p.choice ≠ 0 then
      (MENU_NONE, [GameCall.WindowPrompt Prompt.PreviewScreenshot p.choice, GameCall.SavePreviewImg])
    else
      (MENU_NONE, [GameCall.WindowPrompt Prompt.PreviewScreenshot p.choice])
  else if p.gameSettingsBtn then (MENU_GAMESETTINGS, [])
  else if wii && p.batteryBtn0 then (MENU_NONE, [GameCall.PlayerMappingWindow 0])
  else if wii && p.batteryBtn1 then (MENU_NONE, [GameCall.PlayerMappingWindow 1])
  else if wii && p.batteryBtn2 then (MENU_NONE, [GameCall.PlayerMappingWindow 2])
  else if wii && p.batteryBtn3 then (MENU_NONE, [GameCall.PlayerMappingWindow 3])
  else if p.mainmenuBtn then
    if p.choice ≠ 0 then
      if p.AutoloadGame ≠ 0 then
        (MENU_NONE, [GameCall.WindowPrompt Prompt.QuitGame p.choice, GameCall.ClearScreenshot,
          GameCall.ExitApp])
      else
        (MENU_GAMESELECTION, [GameCall.WindowPrompt Prompt.QuitGame p.choice,
          GameCall.ClearScreenshot])
    else
      (MENU_NONE, [GameCall.WindowPrompt Prompt.QuitGame p.choice])
  else if p.closeBtn then (MENU_EXIT, [])
  else (MENU_NONE, [])

/-! ## `MenuGameCheats` (menu.cpp, lines 2370-2451) -/

/-- The text of an option value of the cheats screen. -/
def onOff (enabled : Bool) : String := if enabled = true then "On" else "Off"

/-- The variables of `MenuGameCheats`: `menu`, the flags `Cheat.g[i].enabled`
and the texts `options.value[i]` for `i < options.length`. The capacity of the
option list is not modelled. -/
structure CheatsScreen where
  menu : Menu
  enabled : List Bool
  value : List String
  deriving DecidableEq, Repr

/-- The external calls of a pass through the loop of `MenuGameCheats`. -/
inductive CheatsCall
  | ToggleCheat (index : Nat)
  | TriggerUpdate
  deriving DecidableEq, Repr

/-- Lines 2377-2383: one option for each cheat, its value "On" or "Off". -/
def MenuGameCheats_init (enabled : List Bool) : CheatsScreen :=
  { menu := MENU_NONE, enabled := enabled, value := enabled.map onOff }

/-- One pass through the body of the loop of `MenuGameCheats`
(lines 2430-2444). `ToggleCheat` is external: the parameter gives the flags
after `ToggleCheat(index)`. The result is `none` when the pass indexes
`Cheat.g` or `options.value` out of bounds. -/
def MenuGameCheats_pass (ToggleCheat : Nat → List Bool → List Bool) (p : OptionPoll)
    (st : CheatsScreen) : Option (CheatsScreen × List CheatsCall) :=
  let clicked : Option (CheatsScreen × List CheatsCall) :=
    if p.ret ≥ 0 then
      let i := p.ret.toNat
      let enabled := ToggleCheat i st.enabled
      match enabled[i]? with
      | none => none
      | some e =>
        if i < st.value.length then
          some ({ st with enabled := enabled, value := st.value.set i (onOff e) },
            [CheatsCall.ToggleCheat i, CheatsCall.TriggerUpdate])
        else none
    else some (st, [])
  clicked.map fun r =>
    (if p.backClicked then { r.1 with menu := MENU_GAMESETTINGS } else r.1, r.2)

/-- The loop of `MenuGameCheats` over the passes that the user goes through:
the screen when the loop ends or the passes are used up. -/
def MenuGameCheats_loop (ToggleCheat : Nat → List Bool → List Bool) :
    List OptionPoll → CheatsScreen → Option CheatsScreen
  | [], st => some st
  | p :: ps, st =>
    if st.menu = MENU_NONE then
      (MenuGameCheats_pass ToggleCheat p st).bind fun r => MenuGameCheats_loop ToggleCheat ps r.1
    else some st

/-- The assumption on the external `ToggleCheat`: it changes only the entry
of its index. -/
def TogglesOnlyEntry (ToggleCheat : Nat → List Bool → List Bool) : Prop :=
  ∀ (i : Nat) (l : List Bool),
    (ToggleCheat i l).length = l.length ∧ ∀ j : Nat, j ≠ i → (ToggleCheat i l)[j]? = l[j]?

/-- A `ToggleCheat` that flips the flag of its index. -/
def flipCheat (i : Nat) (l : List Bool) : List Bool := l.set i (!(l.getD i false))

/-! ## `MenuGameSaves` (menu.cpp, lines 1985-2102) -/

/-- The two kinds of save file that `MenuGameSaves` lists (`saves.type[j]` is
set from them alone, lines 1931-1944). -/
inductive FileKind
  | FILE_SRAM
  | FILE_SNAPSHOT
  deriving DecidableEq, Repr

/-- The external calls of a pass through the loop of `MenuGameSaves`; loads and
prompts are recorded with the value they return, new saves with their slot. -/
inductive SavesCall
  | LoadSRAM (result : Int)
  | LoadSnapshot (result : Int)
  | WindowPrompt (title : Prompt) (choice : Int)
  | remove (extension : String)
  | SaveSRAM (slot : Option Nat)
  | SaveSnapshot (slot : Option Nat)
  deriving DecidableEq, Repr

/-- What a pass through the loop of `MenuGameSaves` reads: the save clicked
(`GetClickedSave()`: -3 when none is, -2 and -1 for the two "new" entries of
the save list), the kind `saves.type[ret]` of the clicked entry (`none` when it
is neither constant), the value the load called by the pass returns, the value
`WindowPrompt` returns, `saves.files[kind][i]` for the slots `i`,
`GCSettings.HideSRAMSaving`, and the two buttons. -/
structure SavesPoll where
  ret : Int
  kind : Option FileKind
  loadResult : Int
  choice : Int
  files : FileKind → Nat → Int
  HideSRAMSaving : Int
  backBtn : Bool
  closeBtn : Bool

/-- The loops of lines 2042-2044 and 2055-2057: the first slot `i` from
`start` on without a file, `stop` when all below `stop` are taken. -/
def firstFreeSlot (files : Nat → Int) (stop : Nat) : Nat → Nat → Nat
  | 0, i => i
  | fuel + 1, i => if i < stop then (if files i = 0 then i else firstFreeSlot files stop fuel (i + 1)) else i

/-- The handling of a clicked save, lines 1992-2081 (`ret > -3`), entered
with `menu == MENU_NONE`. -/
def MenuGameSaves_clicked (action : Int) (p : SavesPoll) : Menu × List SavesCall :=
  if action = 0 then
    match p.kind with
    | some FileKind.FILE_SRAM =>
      (if p.loadResult ≠ 0 then MENU_EXIT else MENU_NONE, [SavesCall.LoadSRAM p.loadResult])
    | some FileKind.FILE_SNAPSHOT =>
      (if p.loadResult ≠ 0 then MENU_EXIT else MENU_NONE, [SavesCall.LoadSnapshot p.loadResult])
    | none => (MENU_NONE, [])
  else if action = 2 then
    (MENU_GAME_DELETE,
      SavesCall.WindowPrompt Prompt.DeleteFile p.choice ::
        (if p.choice ≠ 0 then
          match p.kind with
          | some FileKind.FILE_SRAM => [SavesCall.remove ".srm"]
          | some FileKind.FILE_SNAPSHOT => [SavesCall.remove ".png", SavesCall.remove ".frz"]
          | none => []
        else []))
  else if p.ret = -2 then
    let i := firstFreeSlot (p.files FileKind.FILE_SNAPSHOT) 100 100 1
    if i < 100 then (MENU_GAME_SAVE, [SavesCall.SaveSnapshot (some i)]) else (MENU_NONE, [])
  else if p.ret = -1 ∧ p.HideSRAMSaving = 0 then
    let i := firstFreeSlot (p.files FileKind.FILE_SRAM) 100 100 1
    if i < 100 then (MENU_GAME_SAVE, [SavesCall.SaveSRAM (some i)]) else (MENU_NONE, [])
  else
    (MENU_GAME_SAVE,
      match p.kind with
      | some FileKind.FILE_SRAM => [SavesCall.SaveSRAM none]
      | some FileKind.FILE_SNAPSHOT => [SavesCall.SaveSnapshot none]
      | none => [])

/-- One pass through the body of the loop of `MenuGameSaves`
(lines 1987-2101), entered with `menu == MENU_NONE`: the value of `menu` after
it and the external calls, in order. The two button tests come behind the
handling of the clicked save and are made in every pass. -/
def MenuGameSaves_pass (action : Int) (p : SavesPoll) : Menu × List SavesCall :=
  let c : Menu × List SavesCall :=
    if p.ret > -3 then MenuGameSaves_clicked action p else (MENU_NONE, [])
  if p.backBtn then (MENU_GAME, c.2)
  else if p.closeBtn then (MENU_EXIT, c.2)
  else c

/-- A pass of the load list in which the first save, an SRAM file, is clicked,
its load returns `loadResult`, and the two buttons are as given. -/
def loadClickPoll (loadResult : Int) (backBtn closeBtn : Bool) : SavesPoll :=
  { ret := 0, kind := some FileKind.FILE_SRAM, loadResult := loadResult, choice := 0,
    files := fun _ _ => 0, HideSRAMSaving := 0, backBtn := backBtn, closeBtn := closeBtn }

/-- The load that the load list calls for a save of kind `k` (the switch of
lines 1999-2007), with the value it returns. -/
def loadCall (k : FileKind) (result : Int) : SavesCall :=
  match k with
  | FileKind.FILE_SRAM => SavesCall.LoadSRAM result
  | FileKind.FILE_SNAPSHOT => SavesCall.LoadSnapshot result

/-! ## `AutoSave` (menu.cpp, lines 620-639) and its call in `MenuGame` -/

/-- The external calls of `AutoSave`; the saves are recorded with their
`silent` argument (`SILENT` is `true`), the prompt with its message and the
value it returns. -/
inductive AutoSaveCall
  | SaveSRAMAuto (silent : Bool)
  | SaveSnapshotAuto (silent : Bool)
  | WindowPrompt (msg : String) (choice : Int)
  deriving DecidableEq, Repr

/-- `AutoSave()`: `setting` is `GCSettings.AutoSave`, `choice` the value that
`WindowPrompt` returns if it is called. -/
def AutoSave (setting choice : Int) : List AutoSaveCall :=
  if setting = 1 then
    [AutoSaveCall.SaveSRAMAuto true]
  else if setting = 2 then
    AutoSaveCall.WindowPrompt "Save State?" choice ::
      (if choice ≠ 0 then [AutoSaveCall.SaveSnapshotAuto false] else [])
  else if setting = 3 then
    AutoSaveCall.WindowPrompt "Save SRAM and State?" choice ::
      (if choice ≠ 0 then
        [AutoSaveCall.SaveSRAMAuto false, AutoSaveCall.SaveSnapshotAuto false]
      else [])
  else
    []

/-- The loop `while(menu == MENU_NONE)` that every screen function runs on its
local `menu` and whose end value it returns: the list holds the value of `menu`
behind each pass (a value set in front of the loop counts as a pass). `none`
when the passes are used up with the loop still going. -/
def Screen_loop : List Menu → Option Menu
  | [] => none
  | m :: ms => if m = MENU_NONE then Screen_loop ms else some m

/-- A run of a screen function by its passes: the value of `menu` behind each
pass, and what the run leaves behind as in `ScreenRun`. -/
structure ScreenPasses where
  menus : List Menu
  romSize : Int
  logoClicked : Bool
  deriving DecidableEq, Repr

/-- Whether the screen that `MainMenu` calls in state `s` calls `AutoSave()`:
`MenuGame` does, in front of its loop, when `lastMenu == MENU_NONE`
(lines 1629-1630); no other screen does. -/
def callsAutoSave (s : MainState) : Bool :=
  decide (screenOf s.currentMenu = Screen.MenuGame) && decide (s.lastMenu = MENU_NONE)

/-- The number of calls of `AutoSave()` in the screen loop of `MainMenu` over
the screen runs given; a screen whose loop does not end is the last. -/
def MainMenu_autoSaves : List ScreenPasses → MainState → Nat
  | [], s => if MainMenu_cond s && callsAutoSave s then 1 else 0
  | p :: ps, s =>
    if MainMenu_cond s then
      (if callsAutoSave s then 1 else 0) +
        (match Screen_loop p.menus with
          | none => 0
          | some m => MainMenu_autoSaves ps (MainMenu_body s ⟨m, p.romSize, p.logoClicked⟩))
    else 0

/-! ## `WindowPrompt` (menu.cpp, lines 206-323) and `ErrorPromptRetry` -/

/-- The globals that the window functions test first: whether `mainWindow` is
set, `ExitRequested` and `ShutdownRequested`. -/
structure GuiEnv where
  mainWindow : Bool
  ExitRequested : Int
  ShutdownRequested : Int
  deriving DecidableEq, Repr

/-- The test `!mainWindow || ExitRequested || ShutdownRequested`. -/
def guiUnavailable (env : GuiEnv) : Bool :=
  !env.mainWindow || decide (env.ExitRequested ≠ 0) || decide (env.ShutdownRequested ≠ 0)

/-- What `WindowPrompt` does to the windows, in order (widget set-up, effects
and sounds are left out). -/
inductive PromptCall
  | CancelAction
  | HaltGui
  | ResumeGui
  | mainWindowSetState (disabled : Bool)
  | mainWindowAppend
  | mainWindowChangeFocus
  | mainWindowRemove
  deriving DecidableEq, Repr

/-- The loop `while(choice == -1)` of lines 306-314 over the passes given: each
pass reads whether button 1 and button 2 are clicked. -/
def WindowPrompt_loop : List (Bool × Bool) → Option Int
  | [] => none
  | (btn1, btn2) :: ps => if btn1 then some 1 else if btn2 then some 0 else WindowPrompt_loop ps

/-- `WindowPrompt(title, msg, btn1Label, btn2Label)`: the value returned and
the window calls made; `none` when the passes are used up with no button
clicked. The wait for the end of the slide-out effect is not modelled. -/
def WindowPrompt (env : GuiEnv) (_title _msg _btn1Label : String) (_btn2Label : Option String)
    (passes : List (Bool × Bool)) : Option (Int × List PromptCall) :=
  if guiUnavailable env then some (0, [])
  else
    (WindowPrompt_loop passes).map fun choice =>
      (choice,
        [PromptCall.CancelAction, PromptCall.HaltGui, PromptCall.mainWindowSetState true,
         PromptCall.mainWindowAppend, PromptCall.mainWindowChangeFocus, PromptCall.ResumeGui,
         PromptCall.HaltGui, PromptCall.mainWindowRemove, PromptCall.mainWindowSetState false,
         PromptCall.ResumeGui])

/-- `ErrorPromptRetry(msg)`, lines 605-608. -/
def ErrorPromptRetry (env : GuiEnv) (msg : String) (passes : List (Bool × Bool)) :
    Option (Int × List PromptCall) :=
  WindowPrompt env "Error" msg "Retry" (some "Cancel") passes

/-! ## `ShowProgress` (menu.cpp, lines 552-575) -/

/-- The variables of the progress window; the message is held as the bytes
of its C string. -/
structure ProgressVars where
  showProgress : Int
  progressDone : Int
  progressTotal : Int
  progressMsg : List Nat
  progressTitle : String
  deriving DecidableEq, Repr

/-- The external calls of `ShowProgress`. -/
inductive ProgressCall
  | CancelAction
  | LWP_ResumeThread
  deriving DecidableEq, Repr

/-- The test `done/total > 0.99` of line 563: `done/total` is the division of
two `int`s, which truncates towards zero, and its value is compared with the
constant 0.99 (for a whole number, being above the `double` 0.99 and being
above 99/100 are the same). -/
def nearlyDone (done total : Int) : Bool :=
  decide (((Int.tdiv done total : Int) : ℚ) > 99 / 100)

/-- `ShowProgress(msg, done, total)`: the variables after the call and the
external calls made. The message is a C string, of which
`snprintf(progressMsg, 200, "%s", msg)` keeps at most 199 bytes.
`CancelAction()` (lines 537-544) sets `showProgress` to 0 and waits for the
progress thread; the wait is not modelled. -/
def ShowProgress (env : GuiEnv) (msg : List Nat) (done total : Int) (v : ProgressVars) :
    ProgressVars × List ProgressCall :=
  if guiUnavailable env then (v, [])
  else if total < 256 * 1024 then (v, [])
  else
    let done := if done > total then total else done
    let done := if nearlyDone done total then total else done
    let cancel : List ProgressCall :=
      if v.showProgress ≠ 1 then [ProgressCall.CancelAction] else []
    ({ showProgress := 1, progressDone := done, progressTotal := total,
       progressMsg := (cstr msg).take 199, progressTitle := "Please Wait" },
     cancel ++ [ProgressCall.LWP_ResumeThread])

/-! ## `MenuSettingsEmulation` (menu.cpp, lines 4756-4878) -/

/-- The settings that `MenuSettingsEmulation` reads and writes:
`GCSettings.Satellaview`, `GCSettings.Region`, and the two region flags of the
core `Settings`. -/
structure EmulationSettings where
  Satellaview : Int
  Region : Int
  ForceNTSC : Bool
  ForcePAL : Bool
  deriving DecidableEq, Repr

/-- Lines 4828-4831: `GCSettings.Region++`, and back to 0 behind 2. -/
def regionNext (region : Int) : Int :=
  let region := incr32 region
  if region > 2 then 0 else region

/-- Lines 4828-4846 (`case 1`): the region goes on by one and the two flags
are set from it. -/
def regionUpdate (g : EmulationSettings) : EmulationSettings :=
  let region := regionNext g.Region
  let g := { g with Region := region }
  if region = 0 then { g with ForceNTSC := false, ForcePAL := false }
  else if region = 1 then { g with ForceNTSC := true, ForcePAL := false }
  else if region = 2 then { g with ForceNTSC := false, ForcePAL := true }
  else g

/-- The switch on `ret` of lines 4821-4848. -/
def MenuSettingsEmulation_switch (ret : Int) (g : EmulationSettings) : EmulationSettings :=
  if ret = 0 then { g with Satellaview := Int.xor g.Satellaview 1 }
  else if ret = 1 then regionUpdate g
  else g

/-- The text that lines 4856-4864 write to `options.value[1]`. -/
def regionText (region : Int) : Option String :=
  if region = 0 then some "Automatic"
  else if region = 1 then some "NTSC"
  else if region = 2 then some "PAL"
  else none

/-- The local variables of `MenuSettingsEmulation` and the settings. -/
structure EmulationScreen where
  menu : Menu
  firstRun : Bool
  value0 : String
  value1 : String
  g : EmulationSettings
  deriving DecidableEq, Repr

/-- One pass through the body of the loop of `MenuSettingsEmulation`
(lines 4817-4871): the state after it and the number of calls of
`TriggerUpdate()`. -/
def MenuSettingsEmulation_pass (p : OptionPoll) (st : EmulationScreen) : EmulationScreen × Nat :=
  let st1 : EmulationScreen := { st with g := MenuSettingsEmulation_switch p.ret st.g }
  let rf : EmulationScreen × Nat :=
    if p.ret ≥ 0 ∨ st1.firstRun = true then
      ({ st1 with
          firstRun := false
          value0 := if st1.g.Satellaview = 1 then "On" else "Off"
          value1 := (regionText st1.g.Region).getD st1.value1 }, 1)
    else (st1, 0)
  (if p.backClicked then { rf.1 with menu := MENU_SETTINGS } else rf.1, rf.2)

/-! ## The tables of `MenuSettingsHacks` -/

/-- The switch on `GCSettings.cpuOverclock` of lines 4057-4079: the values of
`OneClockCycle`, `OneSlowClockCycle` and `TwoClockCycles` that it assigns,
`none` when no case applies. -/
def cpuCycleLengths (level : Int) : Option (Int × Int × Int) :=
  if level = 0 then some (6, 8, 12)
  else if level = 1 then some (6, 6, 12)
  else if level = 2 then some (4, 5, 6)
  else if level = 3 then some (3, 3, 3)
  else none

/-- The bytes of the message `"Loading"`. -/
def msgLoading : List Nat := [76, 111, 97, 100, 105, 110, 103]

/-- The variables of the progress window before any progress is shown. -/
def progressIdle : ProgressVars :=
  { showProgress := 0, progressDone := 0, progressTotal := 0, progressMsg := [],
    progressTitle := "" }

/-! ## The persistent state codec (specification, section 4.5)

The code of the codec (`SaveSnapshot`, `LoadSnapshot`, which `MenuGameSaves`
calls) is outside `menu.cpp`; this section follows the specification. -/

/-- Modelled from the spec: one region of the state that a snapshot holds (a
register bank, work RAM, save RAM, ...), the code of the codec being outside
`menu.cpp`: its identifier in the region table and its bytes. -/
structure Region where
  id : Nat
  bytes : List Nat
  deriving DecidableEq, Repr

/-- Modelled from the spec: MachineState together with the mutable regions of
AddressSpace (their declarations are outside `menu.cpp`), as the regions that
`Save()` captures, in the order of the region table. -/
structure MachineState where
  regions : List Region
  deriving DecidableEq, Repr

/-- Modelled from the spec: what the running machine fixes of its regions,
their identifiers and sizes (the compatibility test of the codec is outside
`menu.cpp`); a buffer is compatible when its region table agrees with it. -/
def regionLayout (rs : List Region) : List (Nat × Nat) :=
  rs.map fun r => (r.id, r.bytes.length)

/-- Modelled from the spec: the region table of a SaveBuffer (the layout of
the buffer is fixed outside `menu.cpp`), each entry the identifier and the
size of a region followed by its bytes. -/
def encodeRegions : List Region → List Nat
  | [] => []
  | r :: rs => r.id :: r.bytes.length :: (r.bytes ++ encodeRegions rs)

/-- Modelled from the spec: `Save() -> SaveBuffer` (the `SaveSnapshot` that
`menu.cpp` calls and does not define), a self-describing snapshot: the header
with the format version and the number of regions, then the region table. -/
def Save (version : Nat) (m : MachineState) : List Nat :=
  version :: m.regions.length :: encodeRegions m.regions

/-- Modelled from the spec: reading `n` regions from the region table of a
buffer (the reader of the codec is outside `menu.cpp`); `none` when an entry is
cut short or bytes are left over. -/
def decodeRegions : Nat → List Nat → Option (List Region)
  | 0, [] => some []
  | 0, _ :: _ => none
  | n + 1, id :: size :: rest =>
    if size ≤ rest.length then
      (decodeRegions n (rest.drop size)).map fun rs => ⟨id, rest.take size⟩ :: rs
    else none
  | _ + 1, _ => none

/-- Modelled from the spec: the result of `Load` (declared outside
`menu.cpp`, which tests the `int` that `LoadSnapshot` returns). -/
inductive LoadResult
  | Ok
  | CorruptOrIncompatible
  deriving DecidableEq, Repr

/-- Modelled from the spec: the Validating phase of `Load` (outside
`menu.cpp`): the version of the
header is the one recognised (else `Load` fails fast), the region table reads
in full, and every region has the identifier and the size of the region of
the running machine. The result is the regions to apply. -/
def validateBuffer (version : Nat) (buf : List Nat) (m : MachineState) : Option (List Region) :=
  match buf with
  | v :: n :: table =>
    if v ≠ version then none
    else
      match decodeRegions n table with
      | none => none
      | some rs => if regionLayout rs = regionLayout m.regions then some rs else none
  | _ => none

/-- Modelled from the spec: `Load(SaveBuffer) -> Result` (the `LoadSnapshot`
that `menu.cpp` calls and does not define), `Idle → Validating →
(Applying → Idle) | (Rejected → Idle)`: the regions are applied when all of
them validate, and else the state is left as it is. -/
def Load (version : Nat) (buf : List Nat) (m : MachineState) : LoadResult × MachineState :=
  match validateBuffer version buf m with
  | some rs => (LoadResult.Ok, { regions := rs })
  | none => (LoadResult.CorruptOrIncompatible, m)

/-- A machine of two regions, for the instances: region 1 of two bytes and
region 2 of one byte. -/
def smallMachine (a b c : Nat) : MachineState :=
  { regions := [⟨1, [a, b]⟩, ⟨2, [c]⟩] }

/-! ## The PPU/APU timing model (specification, section 4.4)

The code of the timing model is outside `menu.cpp`; this section follows the
specification. -/

/-- Modelled from the spec: the events that `Advance` emits, the code of the
timing model being outside `menu.cpp`. -/
inductive TimingEvent
  | scanlineBoundary
  | vblankStart
  | frameComplete
  | audioSampleReady
  deriving DecidableEq, Repr

/-- Modelled from the spec: the fixed cycle offsets of the events (the
constants of the timing model are outside `menu.cpp`): the cycles
of a scanline, the scanlines of a frame, the scanline at which vblank starts,
and the cycles between two audio samples. -/
structure TimingConfig where
  cyclesPerLine : Nat
  linesPerFrame : Nat
  vblankLine : Nat
  cyclesPerSample : Nat
  deriving DecidableEq, Repr

/-- Modelled from the spec: the state of the timing model (declared outside
`menu.cpp`), the leftover
cycles that it accumulates between calls: the cycles into the scanline, the
scanline, and the cycles since the last audio sample. -/
structure TimingState where
  lineCycle : Nat
  line : Nat
  sampleCycle : Nat
  deriving DecidableEq, Repr

/-- Modelled from the spec: the timing model over one cycle (its code is
outside `menu.cpp`), with the events that fall on it, in their order. -/
def advanceCycle (cfg : TimingConfig) (s : TimingState) : TimingState × List TimingEvent :=
  let video : (Nat × Nat) × List TimingEvent :=
    if s.lineCycle + 1 ≥ cfg.cyclesPerLine then
      if s.line + 1 ≥ cfg.linesPerFrame then
        ((0, 0), [TimingEvent.scanlineBoundary, TimingEvent.frameComplete])
      else if s.line + 1 = cfg.vblankLine then
        ((0, s.line + 1), [TimingEvent.scanlineBoundary, TimingEvent.vblankStart])
      else
        ((0, s.line + 1), [TimingEvent.scanlineBoundary])
    else ((s.lineCycle + 1, s.line), [])
  let audio : Nat × List TimingEvent :=
    if s.sampleCycle + 1 ≥ cfg.cyclesPerSample then (0, [TimingEvent.audioSampleReady])
    else (s.sampleCycle + 1, [])
  ({ lineCycle := video.1.1, line := video.1.2, sampleCycle := audio.1 }, video.2 ++ audio.2)

/-- Modelled from the spec: `Advance(cycles)` (its code is outside
`menu.cpp`): the state after the cycles and the events emitted, in temporal
order. -/
def Advance (cfg : TimingConfig) : Nat → TimingState → TimingState × List TimingEvent
  | 0, s => (s, [])
  | c + 1, s =>
    let first := advanceCycle cfg s
    let rest := Advance cfg c first.1
    (rest.1, first.2 ++ rest.2)

/-- A small timing configuration for the instances: scanlines of 4 cycles,
frames of 3 scanlines, vblank from scanline 2, an audio sample every 3
cycles. -/
def smallTiming : TimingConfig :=
  { cyclesPerLine := 4, linesPerFrame := 3, vblankLine := 2, cyclesPerSample := 3 }

/-! ## `MenuSettingsFile` (menu.cpp, lines 4337-4545) -/

/-- Modelled from the spec: the device codes, whose enumeration is declared
outside `menu.cpp`: numbered from `DEVICE_AUTO = 0` in the order in which the
screen skips and shows them, `DEVICE_SD_PORT2 = 6` being the last (the screen
takes every method above 6 back to 0). -/
def DEVICE_AUTO : Int := 0

/-- Modelled from the spec: the device code of the SD card (see `DEVICE_AUTO`
for the enumeration, declared outside `menu.cpp`). -/
def DEVICE_SD : Int := 1

/-- Modelled from the spec: the device code of USB (see `DEVICE_AUTO` for the
enumeration, declared outside `menu.cpp`). -/
def DEVICE_USB : Int := 2

/-- Modelled from the spec: the device code of the DVD (see `DEVICE_AUTO` for
the enumeration, declared outside `menu.cpp`). -/
def DEVICE_DVD : Int := 3

/-- Modelled from the spec: the device code of the SD Gecko in slot A (see
`DEVICE_AUTO` for the enumeration, declared outside `menu.cpp`). -/
def DEVICE_SD_SLOTA : Int := 4

/-- Modelled from the spec: the device code of the SD Gecko in slot B (see
`DEVICE_AUTO` for the enumeration, declared outside `menu.cpp`). -/
def DEVICE_SD_SLOTB : Int := 5

/-- Modelled from the spec: the device code of the SD card in serial port 2
(see `DEVICE_AUTO` for the enumeration, declared outside `menu.cpp`). -/
def DEVICE_SD_PORT2 : Int := 6

/-- The settings that `MenuSettingsFile` writes itself: the two devices and the
two automatic actions of `GCSettings`. The folders, which the on-screen
keyboard edits, are left out. -/
structure FileSettings where
  LoadMethod : Int
  SaveMethod : Int
  AutoLoad : Int
  AutoSave : Int
  deriving DecidableEq, Repr

/-- The external calls of a pass through the loop of `MenuSettingsFile`; the
keyboard is recorded with the folder it edits. -/
inductive FileCall
  | OnScreenKeyboard (folder : String)
  | TriggerUpdate
  deriving DecidableEq, Repr

/-- The switch on `ret` of lines 4409-4454. -/
def MenuSettingsFile_switch (ret : Int) (g : FileSettings) : FileSettings × List FileCall :=
  if ret = 0 then ({ g with LoadMethod := incr32 g.LoadMethod }, [])
  else if ret = 1 then ({ g with SaveMethod := incr32 g.SaveMethod }, [])
  else if ret = 2 then (g, [FileCall.OnScreenKeyboard "LoadFolder"])
  else if ret = 3 then (g, [FileCall.OnScreenKeyboard "SaveFolder"])
  else if ret = 4 then (g, [FileCall.OnScreenKeyboard "CheatFolder"])
  else if ret = 5 then (g, [FileCall.OnScreenKeyboard "ScreenshotsFolder"])
  else if ret = 6 then (g, [FileCall.OnScreenKeyboard "CoverFolder"])
  else if ret = 7 then (g, [FileCall.OnScreenKeyboard "ArtworkFolder"])
  else if ret = 8 then
    let a := incr32 g.AutoLoad
    ({ g with AutoLoad := if a > 2 then 0 else a }, [])
  else if ret = 9 then
    let a := incr32 g.AutoSave
    ({ g with AutoSave := if a > 3 then 0 else a }, [])
  else (g, [])

/-- One skip: `if(method == device) method++;`. -/
def skipDevice (device method : Int) : Int :=
  if method = device then incr32 method else method

/-- The skips of the refresh of `MenuSettingsFile`, lines 4460-4499, in the
order of the source: on the GameCube build (`HW_DOL`, here the build that is
not the Wii build) SD and USB; saving to DVD; on the Wii build (`HW_RVL`) the
three SD Gecko devices; at last every method above 6 goes back to 0. -/
def MenuSettingsFile_skips (wii : Bool) (g : FileSettings) : FileSettings :=
  let l := g.LoadMethod
  let s := g.SaveMethod
  let l := if wii then l else skipDevice DEVICE_SD l
  let s := if wii then s else skipDevice DEVICE_SD s
  let l := if wii then l else skipDevice DEVICE_USB l
  let s := if wii then s else skipDevice DEVICE_USB s
  let s := skipDevice DEVICE_DVD s
  let l := if wii then skipDevice DEVICE_SD_SLOTA l else l
  let s := if wii then skipDevice DEVICE_SD_SLOTA s else s
  let l := if wii then skipDevice DEVICE_SD_SLOTB l else l
  let s := if wii then skipDevice DEVICE_SD_SLOTB s else s
  let l := if wii then skipDevice DEVICE_SD_PORT2 l else l
  let s := if wii then skipDevice DEVICE_SD_PORT2 s else s
  let l := if l > 6 then 0 else l
  let s := if s > 6 then 0 else s
  { g with LoadMethod := l, SaveMethod := s }

/-- The local variables of `MenuSettingsFile` and the settings; the texts of
the option list are left out. -/
structure FileScreen where
  menu : Menu
  firstRun : Bool
  g : FileSettings
  deriving DecidableEq, Repr

/-- One pass through the body of the loop of `MenuSettingsFile`
(lines 4405-4538): the state after it and the external calls, in order. -/
def MenuSettingsFile_pass (wii : Bool) (p : OptionPoll) (st : FileScreen) :
    FileScreen × List FileCall :=
  let sw := MenuSettingsFile_switch p.ret st.g
  let st1 : FileScreen := { st with g := sw.1 }
  let rf : FileScreen × List FileCall :=
    if p.ret ≥ 0 ∨ st1.firstRun = true then
      ({ st1 with firstRun := false, g := MenuSettingsFile_skips wii st1.g },
        [FileCall.TriggerUpdate])
    else (st1, [])
  (if p.backClicked then { rf.1 with menu := MENU_SETTINGS } else rf.1, sw.2 ++ rf.2)

/-! ## `MenuSettingsMenu` (menu.cpp, lines 4550-4751) -/

/-- The language codes that the Language option of `MenuSettingsMenu` names;
their enumeration is declared outside `menu.cpp`, so they are parameters. -/
structure LangCodes where
  LANG_JAPANESE : Int
  LANG_TRAD_CHINESE : Int
  LANG_KOREAN : Int
  LANG_LENGTH : Int
  deriving DecidableEq, Repr

/-- The settings of `GCSettings` that `MenuSettingsMenu` writes. -/
structure MenuSettings where
  ExitAction : Int
  WiimoteOrientation : Int
  MusicVolume : Int
  SFXVolume : Int
  language : Int
  PreviewImage : Int
  HideSRAMSaving : Int
  deriving DecidableEq, Repr

/-- The external calls of a pass through the loop of `MenuSettingsMenu`. -/
inductive MenuCall
  | bgMusicSetVolume (volume : Int)
  | enterSoundSetVolume (volume : Int)
  | TriggerUpdate
  deriving DecidableEq, Repr

/-- Lines 4644-4649 (`case 4`): the language goes on by one; the traditional
Chinese, which is not supported, is skipped for Korean, and behind the last
language comes Japanese. -/
def languageNext (c : LangCodes) (language : Int) : Int :=
  let language := incr32 language
  if language = c.LANG_TRAD_CHINESE then c.LANG_KOREAN
  else if language ≥ c.LANG_LENGTH then c.LANG_JAPANESE
  else language

/-- The switch on `ret` of lines 4621-4659. -/
def MenuSettingsMenu_switch (c : LangCodes) (ret : Int) (g : MenuSettings) :
    MenuSettings × List MenuCall :=
  if ret = 0 then
    let a := incr32 g.ExitAction
    ({ g with ExitAction := if a > 3 then 0 else a }, [])
  else if ret = 1 then
    ({ g with WiimoteOrientation := Int.xor g.WiimoteOrientation 1 }, [])
  else if ret = 2 then
    let v := wrap32 (g.MusicVolume + 10)
    let v := if v > 100 then 0 else v
    ({ g with MusicVolume := v }, [MenuCall.bgMusicSetVolume v])
  else if ret = 3 then
    let v := wrap32 (g.SFXVolume + 10)
    let v := if v > 100 then 0 else v
    ({ g with SFXVolume := v }, [MenuCall.enterSoundSetVolume v])
  else if ret = 4 then
    ({ g with language := languageNext c g.language }, [])
  else if ret = 5 then
    let a := incr32 g.PreviewImage
    ({ g with PreviewImage := if a > 2 then 0 else a }, [])
  else if ret = 6 then
    ({ g with HideSRAMSaving := Int.xor g.HideSRAMSaving 1 }, [])
  else (g, [])

/-- The local variables of `MenuSettingsMenu` and the settings; the texts of
the option list are left out. -/
structure MenuScreen where
  menu : Menu
  firstRun : Bool
  g : MenuSettings
  deriving DecidableEq, Repr

/-- One pass through the body of the loop of `MenuSettingsMenu`
(lines 4617-4743): the state after it and the external calls, in order. The
refresh writes a setting on the GameCube build only (lines 4675-4676: an exit
action above 1 goes back to 0). -/
def MenuSettingsMenu_pass (wii : Bool) (c : LangCodes) (p : OptionPoll) (st : MenuScreen) :
    MenuScreen × List MenuCall :=
  let sw := MenuSettingsMenu_switch c p.ret st.g
  let st1 : MenuScreen := { st with g := sw.1 }
  let rf : MenuScreen × List MenuCall :=
    if p.ret ≥ 0 ∨ st1.firstRun = true then
      ({ st1 with
          firstRun := false
          g := if wii then st1.g
               else { st1.g with ExitAction := if st1.g.ExitAction > 1 then 0 else st1.g.ExitAction } },
        [MenuCall.TriggerUpdate])
    else (st1, [])
  (if p.backClicked then { rf.1 with menu := MENU_SETTINGS } else rf.1, sw.2 ++ rf.2)

/-- The language codes of the console: Japanese 0, ..., traditional Chinese 8,
Korean 9, and 13 languages in all, as many as the refresh of the screen has
texts for. -/
def consoleLanguages : LangCodes :=
  { LANG_JAPANESE := 0, LANG_TRAD_CHINESE := 8, LANG_KOREAN := 9, LANG_LENGTH := 13 }

/-! ## Theorems -/

/-! ### C strings -/

theorem cstr_nil : cstr [] = [] := rfl

theorem cstr_cons_zero (s : List Nat) : cstr (0 :: s) = [] := by
  simp [cstr]

theorem cstr_cons_ne (c : Nat) (s : List Nat) (hc : c ≠ 0) : cstr (c :: s) = c :: cstr s := by
  simp [cstr, List.takeWhile_cons, hc]

theorem cstr_append_of_nonzero (r t : List Nat) (hr : ∀ c ∈ r, c ≠ 0) :
    cstr (r ++ t) = r ++ cstr t := by
  induction r with
  | nil => rfl
  | cons c cs ih =>
    have hc : c ≠ 0 := hr c (List.mem_cons_self c cs)
    have hcs : ∀ d ∈ cs, d ≠ 0 := fun d hd => hr d (List.mem_cons_of_mem c hd)
    rw [List.cons_append, cstr_cons_ne _ _ hc, ih hcs, List.cons_append]

theorem cstr_of_nonzero (r : List Nat) (hr : ∀ c ∈ r, c ≠ 0) : cstr r = r := by
  have h := cstr_append_of_nonzero r [] hr
  simpa [cstr_nil] using h

theorem strlen_of_nonzero (r : List Nat) (hr : ∀ c ∈ r, c ≠ 0) : strlen r = r.length := by
  unfold strlen
  rw [cstr_of_nonzero r hr]

theorem strlen_append_of_nonzero (r t : List Nat) (hr : ∀ c ∈ r, c ≠ 0) :
    strlen (r ++ t) = r.length + strlen t := by
  unfold strlen
  rw [cstr_append_of_nonzero r t hr, List.length_append]

/-- When `strncmp(a, b, strlen(b))` is 0, the string `a` begins with the string `b`. -/
theorem prefix_of_strncmp_eq_zero (b : List Nat) :
    ∀ a : List Nat, strncmp a b (strlen b) = 0 → cstr b <+: cstr a := by
  induction b with
  | nil => intro a _; simp [cstr_nil]
  | cons c bs ih =>
    intro a h
    by_cases hc : c = 0
    · subst hc
      simp [cstr_cons_zero]
    · have hlen : strlen (c :: bs) = strlen bs + 1 := by
        unfold strlen
        rw [cstr_cons_ne _ _ hc, List.length_cons]
      rw [hlen] at h
      cases a with
      | nil =>
        exfalso
        simp only [strncmp, List.headD_nil, List.headD_cons] at h
        have hne : (0 : Nat) ≠ c := fun e => hc e.symm
        rw [if_pos hne] at h
        omega
      | cons d as =>
        simp only [strncmp, List.headD_cons, List.tail_cons] at h
        by_cases hd : d = c
        · subst hd
          rw [if_neg (by simp), if_neg hc] at h
          rw [cstr_cons_ne _ _ hc, cstr_cons_ne _ _ hc]
          exact List.prefix_cons_inj d |>.mpr (ih as h)
        · rw [if_pos hd] at h
          exfalso
          omega

/-- On a string that begins with the NUL-free string `r`, `strncmp` against `r`
over `strlen(r)` bytes is 0. -/
theorem strncmp_append_self (r : List Nat) (hr : ∀ c ∈ r, c ≠ 0) (t : List Nat) :
    strncmp (r ++ t) r r.length = 0 := by
  induction r with
  | nil => simp [strncmp]
  | cons c cs ih =>
    have hc : c ≠ 0 := hr c (List.mem_cons_self c cs)
    have hcs : ∀ d ∈ cs, d ≠ 0 := fun d hd => hr d (List.mem_cons_of_mem c hd)
    simp only [List.cons_append, List.length_cons, strncmp, List.headD_cons, List.tail_cons]
    rw [if_neg (by simp), if_neg hc]
    exact ih hcs

theorem charAt_append_length (r t : List Nat) (c : Nat) :
    charAt (r ++ c :: t) r.length = c := by
  unfold charAt
  induction r with
  | nil => rfl
  | cons d ds ih => simpa using ih

theorem drop_append_length_succ (r t : List Nat) (c : Nat) :
    (r ++ c :: t).drop (r.length + 1) = t := by
  induction r with
  | nil => simp
  | cons d ds ih => simp

/-! ### `FindGameSaveNum` -/

/-- The value of `FindGameSaveNum` on a save name that is the ROM name, a
space, and a NUL-free rest `t`. -/
theorem FindGameSaveNum_space (M : Int) (R t : List Nat) (d : Int)
    (hR : ∀ c ∈ R, c ≠ 0) (ht : ∀ c ∈ t, c ≠ 0) :
    FindGameSaveNum M R (R ++ chSpace :: t) d =
      (let n : Int :=
        if t.length = 4 ∧ strncmp t strAuto 4 = 0 then 0
        else if t.length = 1 ∨ t.length = 2 then atoi t
        else -1
       if 0 ≤ n ∧ n < M then n else -1) := by
  have hst : ∀ c ∈ chSpace :: t, c ≠ 0 := by
    intro c hc
    rcases List.mem_cons.mp hc with h | h
    · rw [h]; decide
    · exact ht c h
  have h1 : strlen R = R.length := strlen_of_nonzero R hR
  have h2 : strlen (R ++ chSpace :: t) = R.length + (t.length + 1) := by
    rw [strlen_append_of_nonzero R _ hR, strlen_of_nonzero _ hst, List.length_cons]
  unfold FindGameSaveNum
  simp only [h1, h2, strncmp_append_self R hR, charAt_append_length, drop_append_length_succ]
  have e5 : ((R.length + (t.length + 1) : Nat) : Int) - (R.length : Int) = 5 ↔ t.length = 4 := by
    omega
  have e2 : ((R.length + (t.length + 1) : Nat) : Int) - (R.length : Int) = 2 ↔ t.length = 1 := by
    omega
  have e3 : ((R.length + (t.length + 1) : Nat) : Int) - (R.length : Int) = 3 ↔ t.length = 2 := by
    omega
  simp only [e5, e2, e3, ne_eq, not_true_eq_false, if_false, if_true]

theorem decimal_nonzero (k : Nat) (hk : k ≤ 99) : ∀ c ∈ decimal k, c ≠ 0 := by
  interval_cases k <;> decide

theorem strAuto_nonzero : ∀ c ∈ strAuto, c ≠ 0 := by decide

/-- The final test of `FindGameSaveNum` lets through only numbers in range. -/
theorem save_number_range (n M : Int) :
    (if 0 ≤ n ∧ n < M then n else -1) = -1 ∨
      (0 ≤ (if 0 ≤ n ∧ n < M then n else -1) ∧ (if 0 ≤ n ∧ n < M then n else -1) < M) := by
  by_cases h : 0 ≤ n ∧ n < M
  · rw [if_pos h]
    exact Or.inr h
  · rw [if_neg h]
    exact Or.inl rfl

/-- C1: for every ROM file name, save file name and device, `FindGameSaveNum`
returns -1 or a number `n` with `0 ≤ n < MAX_SAVES`, and it returns -1 whenever
the save name does not begin with the ROM file name. -/
theorem FindGameSaveNum_range (MAX_SAVES : Int) (ROMFilename savefile : List Nat) (device : Int) :
    (FindGameSaveNum MAX_SAVES ROMFilename savefile device = -1 ∨
      (0 ≤ FindGameSaveNum MAX_SAVES ROMFilename savefile device ∧
        FindGameSaveNum MAX_SAVES ROMFilename savefile device < MAX_SAVES)) ∧
    (¬ (cstr ROMFilename <+: cstr savefile) →
      FindGameSaveNum MAX_SAVES ROMFilename savefile device = -1) := by
  constructor
  · unfold FindGameSaveNum
    simp only []
    by_cases h0 : strncmp savefile ROMFilename (strlen ROMFilename) ≠ 0
    · rw [if_pos h0]
      exact Or.inl rfl
    · rw [if_neg h0]
      exact save_number_range _ _
  · intro hpre
    unfold FindGameSaveNum
    simp only []
    rw [if_pos]
    intro h0
    exact hpre (prefix_of_strncmp_eq_zero ROMFilename savefile h0)

/-- Instance of C1 at the ROM name `ab`: the save name `a 7` does not begin
with it and yields -1; the save name `ab 7` yields 7, below `MAX_SAVES = 100`. -/
theorem FindGameSaveNum_range_witness :
    FindGameSaveNum 100 [97, 98] [97, 32, 55] 0 = -1 ∧
    (0 ≤ FindGameSaveNum 100 [97, 98] [97, 98, 32, 55] 0 ∧
      FindGameSaveNum 100 [97, 98] [97, 98, 32, 55] 0 < 100) :=
  ⟨(FindGameSaveNum_range 100 [97, 98] [97, 32, 55] 0).2 (by decide), by decide⟩

/-- C2: for every ROM file name `R` (a C string: no NUL byte) and every slot
`k` with `1 ≤ k ≤ 99` and `k < MAX_SAVES`, `FindGameSaveNum` of `R`, a space and
the decimal digits of `k` is `k`; and, `MAX_SAVES` being positive,
`FindGameSaveNum` of `R` followed by `" Auto"` is 0. -/
theorem FindGameSaveNum_slot (MAX_SAVES : Int) (R : List Nat) (device : Int)
    (hR : ∀ c ∈ R, c ≠ 0) :
    (∀ k : Nat, 1 ≤ k → k ≤ 99 → (k : Int) < MAX_SAVES →
      FindGameSaveNum MAX_SAVES R (R ++ chSpace :: decimal k) device = (k : Int)) ∧
    (0 < MAX_SAVES → FindGameSaveNum MAX_SAVES R (R ++ chSpace :: strAuto) device = 0) := by
  constructor
  · intro k h1 h99 hM
    rw [FindGameSaveNum_space MAX_SAVES R (decimal k) device hR (decimal_nonzero k h99)]
    have key : (if (decimal k).length = 4 ∧ strncmp (decimal k) strAuto 4 = 0 then (0 : Int)
        else if (decimal k).length = 1 ∨ (decimal k).length = 2 then atoi (decimal k)
        else -1) = (k : Int) := by
      interval_cases k <;> decide
    simp only [key]
    rw [if_pos ⟨by omega, hM⟩]
  · intro hM
    rw [FindGameSaveNum_space MAX_SAVES R strAuto device hR strAuto_nonzero]
    have key : (if strAuto.length = 4 ∧ strncmp strAuto strAuto 4 = 0 then (0 : Int)
        else if strAuto.length = 1 ∨ strAuto.length = 2 then atoi strAuto
        else -1) = 0 := by decide
    simp only [key]
    rw [if_pos ⟨le_refl 0, hM⟩]

/-- Instance of C2 at the ROM name `ab` with `MAX_SAVES = 100`: slot 42 and the
Auto save. -/
theorem FindGameSaveNum_slot_witness :
    FindGameSaveNum 100 [97, 98] ([97, 98] ++ chSpace :: decimal 42) 0 = 42 ∧
    FindGameSaveNum 100 [97, 98] ([97, 98] ++ chSpace :: strAuto) 0 = 0 :=
  ⟨(FindGameSaveNum_slot 100 [97, 98] 0 (by decide)).1 42 (by decide) (by decide) (by decide),
   (FindGameSaveNum_slot 100 [97, 98] 0 (by decide)).2 (by decide)⟩

/-- C3 (the code at the failing input): with the ROM name `game` and
`MAX_SAVES = 100`, the save name `game ab` (the ROM name, a space and two
letters, holding no save number) is given the number 0, the number of the
Auto save, and not -1: `atoi` returns 0 on a string without digits. -/
theorem FindGameSaveNum_nondigit :
    FindGameSaveNum 100 [103, 97, 109, 101] [103, 97, 109, 101, 32, 97, 98] 0 = 0 ∧
    FindGameSaveNum 100 [103, 97, 109, 101] [103, 97, 109, 101, 32, 120] 0 = 0 := by
  decide

/-! ### The screen loop of `MainMenu` -/

theorem MainMenu_cond_false_iff (s : MainState) :
    MainMenu_cond s = false ↔ s.currentMenu = MENU_EXIT ∧ 0 < s.SNESROMSize := by
  unfold MainMenu_cond
  by_cases h1 : s.currentMenu = MENU_EXIT
  · by_cases h2 : s.SNESROMSize ≤ 0
    · simp [h1, h2]
    · simp only [h1, h2, bne_self_eq_false, decide_False, Bool.or_self, true_and, true_iff]
      omega
  · simp [h1]

theorem MainMenu_loop_some (rs : List ScreenRun) :
    ∀ (s : MainState) (shown : List Screen) (s' : MainState) (shown' : List Screen),
      MainMenu_loop rs s shown = some (s', shown') →
        s'.currentMenu = MENU_EXIT ∧ 0 < s'.SNESROMSize := by
  induction rs with
  | nil =>
    intro s shown s' shown' h
    unfold MainMenu_loop at h
    by_cases hc : MainMenu_cond s = true
    · rw [if_pos hc] at h
      exact absurd h (by simp)
    · rw [if_neg hc] at h
      have hs : s = s' := congrArg Prod.fst (Option.some.inj h)
      rw [← hs]
      exact (MainMenu_cond_false_iff s).mp (by simpa using hc)
  | cons r rs ih =>
    intro s shown s' shown' h
    unfold MainMenu_loop at h
    by_cases hc : MainMenu_cond s = true
    · rw [if_pos hc] at h
      exact ih _ _ _ _ h
    · rw [if_neg hc] at h
      have hs : s = s' := congrArg Prod.fst (Option.some.inj h)
      rw [← hs]
      exact (MainMenu_cond_false_iff s).mp (by simpa using hc)

/-- C4: the screen loop of `MainMenu` ends only in a state with
`currentMenu == MENU_EXIT` and `SNESROMSize > 0`, and it does end in every such
state; when a screen returns `MENU_EXIT` while `SNESROMSize <= 0` the loop goes
on and the next screen shown is the game selection screen. -/
theorem MainMenu_never_leaves_without_rom :
    (∀ (rs : List ScreenRun) (s : MainState) (shown : List Screen)
        (s' : MainState) (shown' : List Screen),
      MainMenu_loop rs s shown = some (s', shown') →
        s'.currentMenu = MENU_EXIT ∧ 0 < s'.SNESROMSize) ∧
    (∀ (rs : List ScreenRun) (s : MainState) (shown : List Screen),
      s.currentMenu = MENU_EXIT → 0 < s.SNESROMSize →
        MainMenu_loop rs s shown = some (s, shown)) ∧
    (∀ (s : MainState) (r next : ScreenRun) (rs : List ScreenRun) (shown : List Screen),
      r.ret = MENU_EXIT → r.romSize ≤ 0 →
        MainMenu_loop [] (MainMenu_body s r) shown = none ∧
        MainMenu_loop (next :: rs) (MainMenu_body s r) shown =
          MainMenu_loop rs (MainMenu_body (MainMenu_body s r) next)
            (shown ++ [Screen.MenuGameSelection])) := by
  refine ⟨fun rs => MainMenu_loop_some rs, ?_, ?_⟩
  · intro rs s shown h1 h2
    have hc : MainMenu_cond s = false := (MainMenu_cond_false_iff s).mpr ⟨h1, h2⟩
    cases rs with
    | nil => simp [MainMenu_loop, hc]
    | cons r rs => simp [MainMenu_loop, hc]
  · intro s r next rs shown h1 h2
    have hc : MainMenu_cond (MainMenu_body s r) = true := by
      unfold MainMenu_cond MainMenu_body
      simp [h1, h2]
    have hm : (MainMenu_body s r).currentMenu = MENU_EXIT := h1
    constructor
    · simp [MainMenu_loop, hc]
    · rw [MainMenu_loop, if_pos hc, hm]
      rfl

/-- Instance of C4: entered at the game selection screen with no ROM, a first
screen that returns `MENU_EXIT` without loading a ROM is followed by the game
selection screen again, and the loop ends once a ROM of 1024 bytes is loaded. -/
theorem MainMenu_never_leaves_without_rom_witness :
    MainMenu_loop [⟨MENU_EXIT, 0, false⟩, ⟨MENU_EXIT, 1024, false⟩]
        (MainMenu_init MENU_GAMESELECTION 0 false) [] =
      some (⟨MENU_EXIT, MENU_EXIT, 1024, false⟩,
        [Screen.MenuGameSelection, Screen.MenuGameSelection]) ∧
    (MENU_EXIT = MENU_EXIT ∧ (0 : Int) < 1024) :=
  ⟨by decide,
   MainMenu_never_leaves_without_rom.1 [⟨MENU_EXIT, 0, false⟩, ⟨MENU_EXIT, 1024, false⟩]
     (MainMenu_init MENU_GAMESELECTION 0 false) [] ⟨MENU_EXIT, MENU_EXIT, 1024, false⟩
     [Screen.MenuGameSelection, Screen.MenuGameSelection] (by decide)⟩

/-! ### The "Go Back" tree -/

theorem backStep_depth (s t : Screen) (h : backStep s = some t) :
    backDepth s = backDepth t + 1 := by
  cases s <;> simp [backStep, backBtn, screenOf] at h <;> (subst h; rfl)

theorem backSteps_depth (n : Nat) :
    ∀ s t : Screen, backSteps n s = some t → backDepth s = backDepth t + n := by
  induction n with
  | zero =>
    intro s t h
    simp [backSteps] at h
    rw [h]
    rfl
  | succ n ih =>
    intro s t h
    simp only [backSteps] at h
    cases hs : backStep s with
    | none => rw [hs] at h; simp at h
    | some u =>
      rw [hs] at h
      simp only [Option.some_bind] at h
      have h1 := backStep_depth s u hs
      have h2 := ih u t h
      omega

/-- C5: under the "Go Back" transitions the screens form a tree: every screen
reaches `MenuGame` or `MenuGameSelection` (the screens of `MENU_GAME` and
`MENU_GAMESELECTION`) in at most 4 back steps, and no sequence of back steps
returns to a screen already left. The transitions are the ones the claim
lists. -/
theorem goBack_tree :
    (∀ s : Screen, ∃ n : Nat, n ≤ 4 ∧
      (backSteps n s = some Screen.MenuGame ∨ backSteps n s = some Screen.MenuGameSelection)) ∧
    (∀ (s t : Screen) (i j : Nat), i < j → backSteps i s = some t → backSteps j s ≠ some t) ∧
    (backBtn Screen.MenuSettingsMappingsMap = some MENU_GAMESETTINGS_MAPPINGS_CTRL ∧
     backBtn Screen.MenuSettingsMappingsController = some MENU_GAMESETTINGS_MAPPINGS ∧
     backBtn Screen.MenuSettingsMappings = some MENU_GAMESETTINGS ∧
     backBtn Screen.MenuGameSettings = some MENU_GAME ∧
     backBtn Screen.MenuSettingsFastForward = some MENU_GAMESETTINGS_MAPPINGS ∧
     backBtn Screen.MenuSettingsVideo = some MENU_GAMESETTINGS ∧
     backBtn Screen.MenuSettingsAudio = some MENU_GAMESETTINGS ∧
     backBtn Screen.MenuGameCheats = some MENU_GAMESETTINGS ∧
     backBtn Screen.MenuSettingsHacks = some MENU_GAMESETTINGS ∧
     (∀ action : Int, backBtn (Screen.MenuGameSaves action) = some MENU_GAME) ∧
     backBtn Screen.MenuSettingsFile = some MENU_SETTINGS ∧
     backBtn Screen.MenuSettingsMenu = some MENU_SETTINGS ∧
     backBtn Screen.MenuSettingsEmulation = some MENU_SETTINGS ∧
     backBtn Screen.MenuSettings = some MENU_GAMESELECTION) := by
  refine ⟨?_, ?_, ?_⟩
  · intro s
    cases s
    case MenuGameSelection => exact ⟨0, by omega, Or.inr rfl⟩
    case MenuGame => exact ⟨0, by omega, Or.inl rfl⟩
    case MenuGameSaves a => exact ⟨1, by omega, Or.inl rfl⟩
    case MenuGameSettings => exact ⟨1, by omega, Or.inl rfl⟩
    case MenuSettingsMappings => exact ⟨2, by omega, Or.inl rfl⟩
    case MenuSettingsMappingsController => exact ⟨3, by omega, Or.inl rfl⟩
    case MenuSettingsFastForward => exact ⟨3, by omega, Or.inl rfl⟩
    case MenuSettingsMappingsMap => exact ⟨4, by omega, Or.inl rfl⟩
    case MenuSettingsVideo => exact ⟨2, by omega, Or.inl rfl⟩
    case MenuSettingsAudio => exact ⟨2, by omega, Or.inl rfl⟩
    case MenuGameCheats => exact ⟨2, by omega, Or.inl rfl⟩
    case MenuSettingsHacks => exact ⟨2, by omega, Or.inl rfl⟩
    case MenuSettings => exact ⟨1, by omega, Or.inr rfl⟩
    case MenuSettingsFile => exact ⟨2, by omega, Or.inr rfl⟩
    case MenuSettingsMenu => exact ⟨2, by omega, Or.inr rfl⟩
    case MenuSettingsEmulation => exact ⟨2, by omega, Or.inr rfl⟩
  · intro s t i j hij hi hj
    have h1 := backSteps_depth i s t hi
    have h2 := backSteps_depth j s t hj
    omega
  · exact ⟨rfl, rfl, rfl, rfl, rfl, rfl, rfl, rfl, rfl, fun _ => rfl, rfl, rfl, rfl, rfl⟩

/-- Instance of C5: the longest way back, from the button mapping screen, takes
4 steps to `MenuGame`, and the screen left first is not met again at step 4. -/
theorem goBack_tree_witness :
    backSteps 4 Screen.MenuSettingsMappingsMap = some Screen.MenuGame ∧
    backSteps 4 Screen.MenuSettingsMappingsMap ≠ some Screen.MenuSettingsMappingsMap :=
  ⟨by decide,
   goBack_tree.2.1 Screen.MenuSettingsMappingsMap Screen.MenuSettingsMappingsMap 0 4
     (by decide) rfl⟩

/-! ### `MenuSettingsHacks` -/

theorem sfxOverclockUpdate_level (wii : Bool) (g : HacksSettings) :
    (sfxOverclockUpdate wii g).sfxOverclock = sfxNextLevel wii g.sfxOverclock := by
  unfold sfxOverclockUpdate
  simp only []
  cases sfxSpeedPerLine (sfxNextLevel wii g.sfxOverclock) <;> rfl

theorem sfxOverclockUpdate_speed (wii : Bool) (g : HacksSettings) :
    (sfxOverclockUpdate wii g).SuperFXSpeedPerLine =
      (sfxSpeedPerLine (sfxNextLevel wii g.sfxOverclock)).getD g.SuperFXSpeedPerLine := by
  unfold sfxOverclockUpdate
  simp only []
  cases sfxSpeedPerLine (sfxNextLevel wii g.sfxOverclock) <;> rfl

theorem sfxOverclockUpdate_others (wii : Bool) (g : HacksSettings) :
    (sfxOverclockUpdate wii g).cpuOverclock = g.cpuOverclock ∧
    (sfxOverclockUpdate wii g).NoSpriteLimit = g.NoSpriteLimit ∧
    (sfxOverclockUpdate wii g).OneClockCycle = g.OneClockCycle ∧
    (sfxOverclockUpdate wii g).OneSlowClockCycle = g.OneSlowClockCycle ∧
    (sfxOverclockUpdate wii g).TwoClockCycles = g.TwoClockCycles := by
  unfold sfxOverclockUpdate
  simp only []
  cases sfxSpeedPerLine (sfxNextLevel wii g.sfxOverclock) <;> exact ⟨rfl, rfl, rfl, rfl, rfl⟩

theorem sfxNextLevel_le (wii : Bool) (level : Int) : sfxNextLevel wii level ≤ 6 := by
  unfold sfxNextLevel
  cases wii <;> simp only [Bool.false_eq_true, if_false, if_true] <;> split <;> omega

theorem sfxSpeedPerLine_isSome (level : Int) (h0 : 0 ≤ level) (h6 : level ≤ 6) :
    ∃ v, sfxSpeedPerLine level = some v := by
  interval_cases level <;> simp [sfxSpeedPerLine]

theorem cpuOverclockUpdate_speed (g : HacksSettings) :
    (cpuOverclockUpdate g).SuperFXSpeedPerLine = g.SuperFXSpeedPerLine := by
  unfold cpuOverclockUpdate
  simp only []
  split_ifs <;> rfl

/-- The settings after a pass are the settings after its switch. -/
theorem MenuSettingsHacks_pass_g (wii : Bool) (p : OptionPoll) (st : HacksScreen) :
    (MenuSettingsHacks_pass wii p st).1.g = (MenuSettingsHacks_switch wii p.ret st.g).1 := by
  unfold MenuSettingsHacks_pass MenuSettingsHacks_refresh
  simp only []
  split_ifs <;> rfl

/-- Below the last level of the build the click takes the level up by one. -/
theorem sfxNextLevel_of_lt (wii : Bool) (level : Int) (h1 : -1 ≤ level)
    (h2 : level < (if wii = true then 6 else 3)) : sfxNextLevel wii level = level + 1 := by
  unfold sfxNextLevel incr32 wrap32
  cases wii
  · simp only [Bool.false_eq_true, if_false] at h2 ⊢
    split <;> omega
  · simp only [if_true] at h2 ⊢
    split <;> omega

/-- At the last level of the build, and above it, the click takes the level
back to 0. -/
theorem sfxNextLevel_of_ge (wii : Bool) (level : Int)
    (h1 : (if wii = true then 6 else 3) ≤ level) (h2 : level < 2147483647) :
    sfxNextLevel wii level = 0 := by
  unfold sfxNextLevel incr32 wrap32
  cases wii
  · simp only [Bool.false_eq_true, if_false] at h1 ⊢
    split <;> omega
  · simp only [if_true] at h1 ⊢
    split <;> omega

/-- The speeds that the switch of lines 4038-4047 assigns, as numbers. -/
theorem sfxSpeedPerLine_table :
    sfxSpeedPerLine 0 = some 5823405 ∧ sfxSpeedPerLine 1 = some 8548500 ∧
    sfxSpeedPerLine 2 = some 16888500 ∧ sfxSpeedPerLine 3 = some 25228500 ∧
    sfxSpeedPerLine 4 = some 33568500 ∧ sfxSpeedPerLine 5 = some 41908500 ∧
    sfxSpeedPerLine 6 = some 50248500 := by
  refine ⟨?_, ?_, ?_, ?_, ?_, ?_, ?_⟩ <;> simp [sfxSpeedPerLine] <;> norm_num

/-- C6: in `MenuSettingsHacks` a click on the SuperFX Overclocking option
(option 0) first updates `GCSettings.sfxOverclock` and
`Settings.SuperFXSpeedPerLine`, then calls `S9xResetSuperFX()` and then
`S9xReset()`, once each, and only then refreshes the option list: the calls of
the pass are exactly these three, in this order, and each sees the updated
settings. The update: the level goes up by one, and from the last level of the
build (6 on the Wii, 3 on the GameCube) back to 0, so a level in 0..6 becomes
`(level + 1) mod 7` on the Wii and a level in 0..3 becomes `(level + 1) mod 4`
on the GameCube; the speed becomes the one of the new level in the table of the
switch (5823405, 8548500, 16888500, 25228500, 33568500, 41908500, 50248500 for
the levels 0..6); no other setting changes. -/
theorem MenuSettingsHacks_sfx_click (wii backClicked : Bool) (st : HacksScreen) :
    (MenuSettingsHacks_pass wii ⟨0, backClicked⟩ st).2 =
      [⟨HacksCall.S9xResetSuperFX, sfxOverclockUpdate wii st.g⟩,
       ⟨HacksCall.S9xReset, sfxOverclockUpdate wii st.g⟩,
       ⟨HacksCall.TriggerUpdate, sfxOverclockUpdate wii st.g⟩] ∧
    ((MenuSettingsHacks_pass wii ⟨0, backClicked⟩ st).2.map HacksEvent.call).count
      HacksCall.S9xResetSuperFX = 1 ∧
    ((MenuSettingsHacks_pass wii ⟨0, backClicked⟩ st).2.map HacksEvent.call).count
      HacksCall.S9xReset = 1 ∧
    (MenuSettingsHacks_pass wii ⟨0, backClicked⟩ st).1.g = sfxOverclockUpdate wii st.g ∧
    (sfxOverclockUpdate wii st.g).sfxOverclock = sfxNextLevel wii st.g.sfxOverclock ∧
    (0 ≤ sfxNextLevel wii st.g.sfxOverclock →
      sfxSpeedPerLine (sfxNextLevel wii st.g.sfxOverclock) =
        some (sfxOverclockUpdate wii st.g).SuperFXSpeedPerLine) ∧
    (0 ≤ st.g.sfxOverclock → st.g.sfxOverclock ≤ 6 →
      0 ≤ sfxNextLevel wii st.g.sfxOverclock ∧ sfxNextLevel wii st.g.sfxOverclock ≤ 6) ∧
    (wii = true → 0 ≤ st.g.sfxOverclock → st.g.sfxOverclock ≤ 6 →
      (MenuSettingsHacks_pass wii ⟨0, backClicked⟩ st).1.g.sfxOverclock =
        (st.g.sfxOverclock + 1) % 7) ∧
    (wii = false → 0 ≤ st.g.sfxOverclock → st.g.sfxOverclock ≤ 3 →
      (MenuSettingsHacks_pass wii ⟨0, backClicked⟩ st).1.g.sfxOverclock =
        (st.g.sfxOverclock + 1) % 4) ∧
    (-1 ≤ st.g.sfxOverclock → st.g.sfxOverclock < (if wii = true then 6 else 3) →
      (MenuSettingsHacks_pass wii ⟨0, backClicked⟩ st).1.g.sfxOverclock =
        st.g.sfxOverclock + 1) ∧
    ((if wii = true then 6 else 3) ≤ st.g.sfxOverclock → st.g.sfxOverclock < 2147483647 →
      (MenuSettingsHacks_pass wii ⟨0, backClicked⟩ st).1.g.sfxOverclock = 0) ∧
    (0 ≤ (MenuSettingsHacks_pass wii ⟨0, backClicked⟩ st).1.g.sfxOverclock →
      sfxSpeedPerLine (MenuSettingsHacks_pass wii ⟨0, backClicked⟩ st).1.g.sfxOverclock =
        some (MenuSettingsHacks_pass wii ⟨0, backClicked⟩ st).1.g.SuperFXSpeedPerLine) ∧
    (sfxSpeedPerLine 0 = some 5823405 ∧ sfxSpeedPerLine 1 = some 8548500 ∧
      sfxSpeedPerLine 2 = some 16888500 ∧ sfxSpeedPerLine 3 = some 25228500 ∧
      sfxSpeedPerLine 4 = some 33568500 ∧ sfxSpeedPerLine 5 = some 41908500 ∧
      sfxSpeedPerLine 6 = some 50248500) ∧
    ((MenuSettingsHacks_pass wii ⟨0, backClicked⟩ st).1.g.cpuOverclock = st.g.cpuOverclock ∧
      (MenuSettingsHacks_pass wii ⟨0, backClicked⟩ st).1.g.NoSpriteLimit = st.g.NoSpriteLimit ∧
      (MenuSettingsHacks_pass wii ⟨0, backClicked⟩ st).1.g.OneClockCycle = st.g.OneClockCycle ∧
      (MenuSettingsHacks_pass wii ⟨0, backClicked⟩ st).1.g.OneSlowClockCycle =
        st.g.OneSlowClockCycle ∧
      (MenuSettingsHacks_pass wii ⟨0, backClicked⟩ st).1.g.TwoClockCycles =
        st.g.TwoClockCycles) := by
  have hlog : (MenuSettingsHacks_pass wii ⟨0, backClicked⟩ st).2 =
      [⟨HacksCall.S9xResetSuperFX, sfxOverclockUpdate wii st.g⟩,
       ⟨HacksCall.S9xReset, sfxOverclockUpdate wii st.g⟩,
       ⟨HacksCall.TriggerUpdate, sfxOverclockUpdate wii st.g⟩] := by
    simp [MenuSettingsHacks_pass, MenuSettingsHacks_switch, MenuSettingsHacks_refresh]
  have hg : (MenuSettingsHacks_pass wii ⟨0, backClicked⟩ st).1.g = sfxOverclockUpdate wii st.g := by
    rw [MenuSettingsHacks_pass_g]
    simp [MenuSettingsHacks_switch]
  have hlevel : (MenuSettingsHacks_pass wii ⟨0, backClicked⟩ st).1.g.sfxOverclock =
      sfxNextLevel wii st.g.sfxOverclock := by
    rw [hg]
    exact sfxOverclockUpdate_level wii st.g
  have hspeed : 0 ≤ sfxNextLevel wii st.g.sfxOverclock →
      sfxSpeedPerLine (sfxNextLevel wii st.g.sfxOverclock) =
        some (sfxOverclockUpdate wii st.g).SuperFXSpeedPerLine := by
    intro h0
    obtain ⟨v, hv⟩ := sfxSpeedPerLine_isSome _ h0 (sfxNextLevel_le wii st.g.sfxOverclock)
    rw [sfxOverclockUpdate_speed, hv]
    rfl
  refine ⟨hlog, ?_, ?_, hg, sfxOverclockUpdate_level wii st.g, hspeed, ?_, ?_, ?_, ?_, ?_, ?_,
    sfxSpeedPerLine_table, ?_⟩
  · rw [hlog]
    rfl
  · rw [hlog]
    rfl
  · intro h0 h6
    refine ⟨?_, sfxNextLevel_le wii st.g.sfxOverclock⟩
    unfold sfxNextLevel incr32 wrap32
    simp only []
    split <;> omega
  · intro hw h0 h6
    rw [hlevel, hw]
    by_cases h : st.g.sfxOverclock < 6
    · rw [sfxNextLevel_of_lt true _ (by omega) (by simpa using h)]
      omega
    · rw [sfxNextLevel_of_ge true _ (by simp; omega) (by omega)]
      omega
  · intro hw h0 h3
    rw [hlevel, hw]
    by_cases h : st.g.sfxOverclock < 3
    · rw [sfxNextLevel_of_lt false _ (by omega) (by simpa using h)]
      omega
    · rw [sfxNextLevel_of_ge false _ (by simp; omega) (by omega)]
      omega
  · intro h1 h2
    rw [hlevel]
    exact sfxNextLevel_of_lt wii _ h1 h2
  · intro h1 h2
    rw [hlevel]
    exact sfxNextLevel_of_ge wii _ h1 h2
  · intro h0
    rw [hlevel] at h0 ⊢
    rw [hg]
    exact hspeed h0
  · rw [hg]
    exact sfxOverclockUpdate_others wii st.g

/-- Instance of C6 on the Wii build at level 1 (20 MHz): the click sets level 2
and the speed of level 2 (0.417 * 40.5e6 = 16888500) in front of the resets;
at level 6 the click sets level 0. -/
theorem MenuSettingsHacks_sfx_click_witness :
    (MenuSettingsHacks_pass true ⟨0, false⟩
      ⟨MENU_NONE, false, "20 MHz", "None", "Off", ⟨1, 0, 0, 8548500, 6, 8, 12⟩⟩).1.g.sfxOverclock
      = 2 ∧
    (MenuSettingsHacks_pass true ⟨0, false⟩
      ⟨MENU_NONE, false, "20 MHz", "None", "Off",
        ⟨1, 0, 0, 8548500, 6, 8, 12⟩⟩).1.g.SuperFXSpeedPerLine = 16888500 ∧
    (MenuSettingsHacks_pass true ⟨0, false⟩
      ⟨MENU_NONE, false, "120 MHz", "None", "Off",
        ⟨6, 0, 0, 50248500, 6, 8, 12⟩⟩).1.g.sfxOverclock = 0 := by
  have h := MenuSettingsHacks_sfx_click true false
    ⟨MENU_NONE, false, "20 MHz", "None", "Off", ⟨1, 0, 0, 8548500, 6, 8, 12⟩⟩
  have h6 := MenuSettingsHacks_sfx_click true false
    ⟨MENU_NONE, false, "120 MHz", "None", "Off", ⟨6, 0, 0, 50248500, 6, 8, 12⟩⟩
  obtain ⟨_, _, _, _, _, _, _, hwii, _, _, _, hsp, htab, _⟩ := h
  obtain ⟨_, _, _, _, _, _, _, hwii6, _⟩ := h6
  have hl : (MenuSettingsHacks_pass true ⟨0, false⟩
      ⟨MENU_NONE, false, "20 MHz", "None", "Off", ⟨1, 0, 0, 8548500, 6, 8, 12⟩⟩).1.g.sfxOverclock
      = 2 := (hwii rfl (by decide) (by decide)).trans (by decide)
  refine ⟨hl, ?_, (hwii6 rfl (by decide) (by decide)).trans (by decide)⟩
  have h2 := hsp (by rw [hl]; decide)
  rw [hl, htab.2.2.1] at h2
  exact (Option.some.inj h2).symm

/-- C7 (counterexample): a click on the CPU Overclocking option (option 1) at
level 0 changes the timing field `Settings.OneSlowClockCycle` of the core, from
8 to 6. -/
theorem MenuSettingsHacks_cpu_click_changes_timing :
    (MenuSettingsHacks_pass true ⟨1, false⟩ hacksScreenAtDefaults).1.g.OneSlowClockCycle = 6 ∧
    hacksScreenAtDefaults.g.OneSlowClockCycle = 8 ∧
    (MenuSettingsHacks_pass true ⟨1, false⟩ hacksScreenAtDefaults).1.g.OneSlowClockCycle ≠
      hacksScreenAtDefaults.g.OneSlowClockCycle := by
  have h : (MenuSettingsHacks_pass true ⟨1, false⟩ hacksScreenAtDefaults).1.g.OneSlowClockCycle
      = 6 := by
    rw [MenuSettingsHacks_pass_g]
    decide
  refine ⟨h, rfl, ?_⟩
  rw [h]
  decide

/-- C7 (amended): in the Emulation Hacks screen a pass of the loop with any
click other than one on CPU Overclocking (option 1) leaves `OneClockCycle`,
`OneSlowClockCycle` and `TwoClockCycles` as they are, and only a click on
SuperFX Overclocking (option 0) can change `SuperFXSpeedPerLine`; a click on
CPU Overclocking sets the three CPU cycle lengths, as its switch has it, and
leaves `SuperFXSpeedPerLine` as it is. -/
theorem MenuSettingsHacks_timing_fields (wii : Bool) (p : OptionPoll) (st : HacksScreen) :
    (p.ret ≠ 1 →
      (MenuSettingsHacks_pass wii p st).1.g.OneClockCycle = st.g.OneClockCycle ∧
      (MenuSettingsHacks_pass wii p st).1.g.OneSlowClockCycle = st.g.OneSlowClockCycle ∧
      (MenuSettingsHacks_pass wii p st).1.g.TwoClockCycles = st.g.TwoClockCycles) ∧
    (p.ret ≠ 0 →
      (MenuSettingsHacks_pass wii p st).1.g.SuperFXSpeedPerLine = st.g.SuperFXSpeedPerLine) ∧
    (p.ret = 1 →
      (MenuSettingsHacks_pass wii p st).1.g = cpuOverclockUpdate st.g) := by
  rw [MenuSettingsHacks_pass_g]
  refine ⟨?_, ?_, ?_⟩
  · intro h1
    unfold MenuSettingsHacks_switch
    by_cases h0 : p.ret = 0
    · rw [if_pos h0]
      obtain ⟨_, _, h3, h4, h5⟩ := sfxOverclockUpdate_others wii st.g
      exact ⟨h3, h4, h5⟩
    · rw [if_neg h0, if_neg h1]
      split_ifs <;> exact ⟨rfl, rfl, rfl⟩
  · intro h0
    unfold MenuSettingsHacks_switch
    rw [if_neg h0]
    split_ifs
    · exact cpuOverclockUpdate_speed st.g
    · rfl
    · rfl
  · intro h1
    unfold MenuSettingsHacks_switch
    have h0 : p.ret ≠ 0 := by omega
    rw [if_neg h0, if_pos h1]

/-- Instance of C7 (amended): a click on No Sprite Limit (option 2) leaves the
CPU cycle lengths 6, 8, 12 as they are. -/
theorem MenuSettingsHacks_timing_fields_witness :
    (MenuSettingsHacks_pass true ⟨2, false⟩ hacksScreenAtDefaults).1.g.OneClockCycle = 6 ∧
    (MenuSettingsHacks_pass true ⟨2, false⟩ hacksScreenAtDefaults).1.g.OneSlowClockCycle = 8 ∧
    (MenuSettingsHacks_pass true ⟨2, false⟩ hacksScreenAtDefaults).1.g.TwoClockCycles = 12 :=
  (MenuSettingsHacks_timing_fields true ⟨2, false⟩ hacksScreenAtDefaults).1 (by decide)

/-! ### `MenuGame` -/

/-- The pass of `MenuGame` that handles a click on Reset. -/
theorem MenuGame_pass_reset (wii : Bool) (p : GamePoll)
    (h1 : p.saveBtn = false) (h2 : p.loadBtn = false) (h3 : p.deleteBtn = false)
    (h4 : p.resetBtn = true) :
    MenuGame_pass wii p =
      if p.choice ≠ 0 then
        (MENU_EXIT, [GameCall.WindowPrompt Prompt.ResetGame p.choice, GameCall.S9xSoftReset])
      else
        (MENU_NONE, [GameCall.WindowPrompt Prompt.ResetGame p.choice]) := by
  unfold MenuGame_pass
  rw [h1, h2, h3, h4]
  rfl

/-- A pass of `MenuGame` that does not handle a click on Reset neither shows
the "Reset Game" prompt nor resets. -/
theorem MenuGame_pass_no_reset (wii : Bool) (p : GamePoll)
    (h : ¬ (p.resetBtn = true ∧ p.saveBtn = false ∧ p.loadBtn = false ∧ p.deleteBtn = false)) :
    GameCall.S9xSoftReset ∉ (MenuGame_pass wii p).2 ∧
    ∀ c : Int, GameCall.WindowPrompt Prompt.ResetGame c ∉ (MenuGame_pass wii p).2 := by
  unfold MenuGame_pass
  by_cases h1 : p.saveBtn = true
  · rw [if_pos h1]; simp
  rw [if_neg h1]
  by_cases h2 : p.loadBtn = true
  · rw [if_pos h2]; simp
  rw [if_neg h2]
  by_cases h3 : p.deleteBtn = true
  · rw [if_pos h3]; simp
  rw [if_neg h3]
  by_cases h4 : p.resetBtn = true
  · exfalso
    apply h
    simp only [Bool.not_eq_true] at h1 h2 h3
    exact ⟨h4, h1, h2, h3⟩
  rw [if_neg h4]
  by_cases h5 : p.screenshotBtn = true
  · rw [if_pos h5]
    by_cases hc : p.choice ≠ 0
    · rw [if_pos hc]; simp
    · rw [if_neg hc]; simp
  rw [if_neg h5]
  by_cases h6 : p.gameSettingsBtn = true
  · rw [if_pos h6]; simp
  rw [if_neg h6]
  by_cases h7 : (wii && p.batteryBtn0) = true
  · rw [if_pos h7]; simp
  rw [if_neg h7]
  by_cases h8 : (wii && p.batteryBtn1) = true
  · rw [if_pos h8]; simp
  rw [if_neg h8]
  by_cases h9 : (wii && p.batteryBtn2) = true
  · rw [if_pos h9]; simp
  rw [if_neg h9]
  by_cases h10 : (wii && p.batteryBtn3) = true
  · rw [if_pos h10]; simp
  rw [if_neg h10]
  by_cases h11 : p.mainmenuBtn = true
  · rw [if_pos h11]
    by_cases hc : p.choice ≠ 0
    · rw [if_pos hc]
      by_cases ha : p.AutoloadGame ≠ 0
      · rw [if_pos ha]; simp
      · rw [if_neg ha]; simp
    · rw [if_neg hc]; simp
  rw [if_neg h11]
  by_cases h12 : p.closeBtn = true
  · rw [if_pos h12]; simp
  · rw [if_neg h12]; simp

/-- C8: in a pass of `MenuGame`, `S9xSoftReset()` is called if and only if the
"Reset Game" prompt is shown and returns non-zero, and then once; when the
prompt returns non-zero the pass ends with `MENU_EXIT` (back to the game), when
it returns 0 `S9xSoftReset` is not called and `menu` stays `MENU_NONE` (the
screen stays open); the prompt is shown for a click on Reset (with no click on
Save, Load or Delete, which the chain tests first), and `S9xSoftReset` is
called for no other button. -/
theorem MenuGame_reset (wii : Bool) (p : GamePoll) :
    (GameCall.S9xSoftReset ∈ (MenuGame_pass wii p).2 ↔
      ∃ c : Int, c ≠ 0 ∧ GameCall.WindowPrompt Prompt.ResetGame c ∈ (MenuGame_pass wii p).2) ∧
    (MenuGame_pass wii p).2.count GameCall.S9xSoftReset ≤ 1 ∧
    (∀ c : Int, c ≠ 0 → GameCall.WindowPrompt Prompt.ResetGame c ∈ (MenuGame_pass wii p).2 →
      (MenuGame_pass wii p).1 = MENU_EXIT) ∧
    (GameCall.WindowPrompt Prompt.ResetGame 0 ∈ (MenuGame_pass wii p).2 →
      GameCall.S9xSoftReset ∉ (MenuGame_pass wii p).2 ∧ (MenuGame_pass wii p).1 = MENU_NONE) ∧
    ((∃ c : Int, GameCall.WindowPrompt Prompt.ResetGame c ∈ (MenuGame_pass wii p).2) ↔
      (p.resetBtn = true ∧ p.saveBtn = false ∧ p.loadBtn = false ∧ p.deleteBtn = false)) ∧
    (GameCall.S9xSoftReset ∈ (MenuGame_pass wii p).2 → p.resetBtn = true) := by
  by_cases hr : p.resetBtn = true ∧ p.saveBtn = false ∧ p.loadBtn = false ∧ p.deleteBtn = false
  · obtain ⟨h1, h2, h3, h4⟩ := hr
    rw [MenuGame_pass_reset wii p h2 h3 h4 h1]
    by_cases hc : p.choice ≠ 0
    · rw [if_pos hc]
      have hc2 : ¬ (0 = p.choice) := fun e => hc e.symm
      simp [h1, h2, h3, h4, hc, hc2]
    · rw [if_neg hc]
      have hc0 : p.choice = 0 := by
        by_contra h
        exact hc h
      simp [h1, h2, h3, h4, hc0]
  · obtain ⟨n1, n2⟩ := MenuGame_pass_no_reset wii p hr
    have n3 : ¬ ∃ c : Int, GameCall.WindowPrompt Prompt.ResetGame c ∈ (MenuGame_pass wii p).2 :=
      fun ⟨c, hc⟩ => n2 c hc
    refine ⟨?_, ?_, ?_, ?_, ?_, ?_⟩
    · exact ⟨fun h => absurd h n1, fun ⟨c, _, hc⟩ => absurd hc (n2 c)⟩
    · rw [List.count_eq_zero_of_not_mem n1]
      exact Nat.zero_le 1
    · exact fun c _ hc => absurd hc (n2 c)
    · exact fun hc => absurd hc (n2 0)
    · exact ⟨fun h => absurd h n3, fun h => absurd h hr⟩
    · exact fun h => absurd h n1

/-- Instance of C8: a click on Reset, confirmed (the prompt returns 1), calls
`S9xSoftReset()` and the pass ends with `MENU_EXIT`. -/
theorem MenuGame_reset_witness :
    (MenuGame_pass true
      ⟨false, false, false, true, false, false, false, false, false, false, false, false, 1, 0⟩).1
      = MENU_EXIT :=
  (MenuGame_reset true
    ⟨false, false, false, true, false, false, false, false, false, false, false, false, 1, 0⟩).2.2.1
    1 (by decide) (by decide)

/-! ### `MenuGameCheats` -/

theorem flipCheat_togglesOnlyEntry : TogglesOnlyEntry flipCheat := by
  intro i l
  unfold flipCheat
  refine ⟨List.length_set _ _ _, ?_⟩
  intro j hj
  exact List.getElem?_set_ne (fun e => hj e.symm)

theorem onOff_eq_On (e : Bool) : onOff e = "On" ↔ e = true := by
  cases e <;> decide

/-- A pass of `MenuGameCheats` with a click on option `i`, below the number of
cheats. -/
theorem MenuGameCheats_pass_click (T : Nat → List Bool → List Bool) (hT : TogglesOnlyEntry T)
    (st : CheatsScreen) (i : Nat) (back : Bool)
    (hi : i < st.enabled.length) (hlen : st.value.length = st.enabled.length) :
    ∃ e : Bool, (T i st.enabled)[i]? = some e ∧
      MenuGameCheats_pass T ⟨(i : Int), back⟩ st =
        some (⟨if back then MENU_GAMESETTINGS else st.menu, T i st.enabled,
                st.value.set i (onOff e)⟩,
          [CheatsCall.ToggleCheat i, CheatsCall.TriggerUpdate]) := by
  have hl : i < (T i st.enabled).length := by rw [(hT i st.enabled).1]; exact hi
  refine ⟨(T i st.enabled)[i], List.getElem?_eq_getElem hl, ?_⟩
  have hv : i < st.value.length := by rw [hlen]; exact hi
  unfold MenuGameCheats_pass
  simp only [Int.toNat_ofNat, ge_iff_le, Int.natCast_nonneg, if_true,
    List.getElem?_eq_getElem hl, hv, Option.map_some']
  cases back <;> rfl

/-- The values shown stay in step with the flags over a pass with a click in
range, and the number of cheats stays. -/
theorem MenuGameCheats_pass_inv (T : Nat → List Bool → List Bool) (hT : TogglesOnlyEntry T)
    (st : CheatsScreen) (i : Nat) (back : Bool)
    (hi : i < st.enabled.length) (hinv : st.value = st.enabled.map onOff) :
    ∃ r : CheatsScreen × List CheatsCall,
      MenuGameCheats_pass T ⟨(i : Int), back⟩ st = some r ∧
      r.1.value = r.1.enabled.map onOff ∧ r.1.enabled.length = st.enabled.length := by
  have hlen : st.value.length = st.enabled.length := by rw [hinv, List.length_map]
  obtain ⟨e, he, hp⟩ := MenuGameCheats_pass_click T hT st i back hi hlen
  refine ⟨_, hp, ?_, (hT i st.enabled).1⟩
  apply List.ext_getElem?
  intro j
  simp only [List.getElem?_map]
  by_cases hj : j = i
  · subst hj
    rw [List.getElem?_set_self (by rw [hlen]; exact hi), he]
    rfl
  · rw [List.getElem?_set_ne (fun e => hj e.symm), (hT i st.enabled).2 j hj, hinv,
      List.getElem?_map]

theorem MenuGameCheats_loop_inv (T : Nat → List Bool → List Bool) (hT : TogglesOnlyEntry T)
    (n : Nat) (ps : List OptionPoll) :
    ∀ st : CheatsScreen, st.enabled.length = n → st.value = st.enabled.map onOff →
      (∀ p ∈ ps, p.ret < (n : Int)) →
      ∃ st' : CheatsScreen, MenuGameCheats_loop T ps st = some st' ∧
        st'.value = st'.enabled.map onOff ∧ st'.enabled.length = n := by
  induction ps with
  | nil => intro st hn hinv _; exact ⟨st, rfl, hinv, hn⟩
  | cons p ps ih =>
    intro st hn hinv hps
    unfold MenuGameCheats_loop
    by_cases hm : st.menu = MENU_NONE
    · rw [if_pos hm]
      have hp := hps p (List.mem_cons_self p ps)
      have hrest : ∀ q ∈ ps, q.ret < (n : Int) := fun q hq => hps q (List.mem_cons_of_mem p hq)
      by_cases h0 : p.ret ≥ 0
      · obtain ⟨i, hi⟩ := Int.eq_ofNat_of_zero_le h0
        have hin : i < st.enabled.length := by omega
        obtain ⟨r, hr, hrinv, hrlen⟩ :=
          MenuGameCheats_pass_inv T hT st i p.backClicked hin hinv
        have hpe : p = ⟨(i : Int), p.backClicked⟩ := by
          cases p
          simp only [OptionPoll.mk.injEq, and_true]
          exact hi
        rw [hpe, hr]
        exact ih r.1 (by rw [hrlen, hn]) hrinv hrest
      · have hpass : MenuGameCheats_pass T p st =
            some (if p.backClicked then { st with menu := MENU_GAMESETTINGS } else st, []) := by
          unfold MenuGameCheats_pass
          simp only [h0, if_false, Option.map_some']
        rw [hpass]
        simp only [Option.some_bind]
        apply ih
        · split_ifs <;> exact hn
        · split_ifs <;> exact hinv
        · exact hrest
    · rw [if_neg hm]
      exact ⟨st, rfl, hinv, hn⟩

/-- C9: in `MenuGameCheats`, with a `ToggleCheat` that changes only the entry of
its index, a click on option `i` (below the number of cheats) calls
`ToggleCheat(i)` once and rewrites only `options.value[i]`; and from the start
of the screen on, after every click each value shown is "On" exactly when the
flag `enabled` of its cheat is set. -/
theorem MenuGameCheats_values (ToggleCheat : Nat → List Bool → List Bool)
    (hT : TogglesOnlyEntry ToggleCheat) :
    (∀ (st : CheatsScreen) (i : Nat) (back : Bool),
      i < st.enabled.length → st.value.length = st.enabled.length →
      ∃ st' : CheatsScreen,
        MenuGameCheats_pass ToggleCheat ⟨(i : Int), back⟩ st =
          some (st', [CheatsCall.ToggleCheat i, CheatsCall.TriggerUpdate]) ∧
        st'.enabled = ToggleCheat i st.enabled ∧
        st'.value.length = st.value.length ∧
        (∀ j : Nat, j ≠ i → st'.value[j]? = st.value[j]?) ∧
        st'.value[i]? = (st'.enabled[i]?).map onOff) ∧
    (∀ (enabled : List Bool) (ps : List OptionPoll),
      (∀ p ∈ ps, p.ret < (enabled.length : Int)) →
      ∃ st : CheatsScreen,
        MenuGameCheats_loop ToggleCheat ps (MenuGameCheats_init enabled) = some st ∧
        st.enabled.length = enabled.length ∧
        st.value = st.enabled.map onOff ∧
        (∀ j : Nat, j < enabled.length →
          (st.value[j]? = some "On" ↔ st.enabled[j]? = some true))) := by
  constructor
  · intro st i back hi hlen
    obtain ⟨e, he, hp⟩ := MenuGameCheats_pass_click ToggleCheat hT st i back hi hlen
    refine ⟨_, hp, rfl, List.length_set _ _ _, ?_, ?_⟩
    · intro j hj
      exact List.getElem?_set_ne (fun e => hj e.symm)
    · simp only []
      rw [List.getElem?_set_self (by rw [hlen]; exact hi), he]
      rfl
  · intro enabled ps hps
    obtain ⟨st, hst, hinv, hlen⟩ :=
      MenuGameCheats_loop_inv ToggleCheat hT enabled.length ps (MenuGameCheats_init enabled)
        rfl rfl hps
    refine ⟨st, hst, hlen, hinv, ?_⟩
    intro j hj
    have hj2 : j < st.enabled.length := by rw [hlen]; exact hj
    rw [hinv, List.getElem?_map, List.getElem?_eq_getElem hj2]
    simp only [Option.map_some', Option.some.injEq]
    exact onOff_eq_On _

/-- Instance of C9 with a `ToggleCheat` that flips the flag: two cheats, off
and on; a click on cheat 1 and then one on cheat 0 leave the values "On", "Off"
for the flags on, off. -/
theorem MenuGameCheats_values_witness :
    ∃ st : CheatsScreen,
      MenuGameCheats_loop flipCheat [⟨1, false⟩, ⟨0, false⟩]
        (MenuGameCheats_init [false, true]) = some st ∧
      st.enabled.length = [false, true].length ∧
      st.value = st.enabled.map onOff ∧
      (∀ j : Nat, j < [false, true].length →
        (st.value[j]? = some "On" ↔ st.enabled[j]? = some true)) :=
  (MenuGameCheats_values flipCheat flipCheat_togglesOnlyEntry).2 [false, true]
    [⟨1, false⟩, ⟨0, false⟩] (by decide)

/-! ### `MenuGameSaves` -/

/-- C10 (counterexample): on the load list (action 0), a pass in which the
load of the clicked save succeeds (returns 1) while "Go Back" is clicked ends
with `MENU_GAME`, not `MENU_EXIT`; and a pass in which the load fails (returns
0) while "Close" is clicked ends with `MENU_EXIT`, the exit to the game. -/
theorem MenuGameSaves_load_buttons_override :
    MenuGameSaves_pass 0 (loadClickPoll 1 true false) =
      (MENU_GAME, [SavesCall.LoadSRAM 1]) ∧
    (MenuGameSaves_pass 0 (loadClickPoll 1 true false)).1 ≠ MENU_EXIT ∧
    MenuGameSaves_pass 0 (loadClickPoll 0 false true) =
      (MENU_EXIT, [SavesCall.LoadSRAM 0]) := by
  refine ⟨rfl, ?_, rfl⟩
  decide

/-- C10 (amended): on the load list (action 0), in a pass with a click on a
save of either kind the load is called once, and the value of `menu` behind the
pass is: `MENU_GAME` when "Go Back" is clicked; else `MENU_EXIT` when "Close"
is clicked; else `MENU_EXIT` when the load returned non-zero and `MENU_NONE`
(the screen stays on the load list) when it returned 0. -/
theorem MenuGameSaves_load_result (p : SavesPoll) (k : FileKind)
    (hclick : p.ret > -3) (hkind : p.kind = some k) :
    (MenuGameSaves_pass 0 p).2 = [loadCall k p.loadResult] ∧
    (p.backBtn = true → (MenuGameSaves_pass 0 p).1 = MENU_GAME) ∧
    (p.backBtn = false → p.closeBtn = true → (MenuGameSaves_pass 0 p).1 = MENU_EXIT) ∧
    (p.backBtn = false → p.loadResult ≠ 0 → (MenuGameSaves_pass 0 p).1 = MENU_EXIT) ∧
    (p.backBtn = false → p.closeBtn = false → p.loadResult = 0 →
      (MenuGameSaves_pass 0 p).1 = MENU_NONE) := by
  have hc : MenuGameSaves_clicked 0 p =
      (if p.loadResult ≠ 0 then MENU_EXIT else MENU_NONE, [loadCall k p.loadResult]) := by
    unfold MenuGameSaves_clicked
    rw [if_pos rfl]
    simp only [hkind]
    cases k <;> rfl
  unfold MenuGameSaves_pass
  simp only [hclick, if_true, hc]
  refine ⟨?_, ?_, ?_, ?_, ?_⟩
  · cases p.backBtn <;> cases p.closeBtn <;> rfl
  · intro hb
    rw [hb]
    rfl
  · intro hb hcl
    rw [hb, hcl]
    rfl
  · intro hb hr
    rw [hb]
    cases p.closeBtn
    · simp [hr]
    · rfl
  · intro hb hcl hr
    rw [hb, hcl]
    simp [hr]

/-- Instance of C10 (amended): the load of the clicked save succeeds and no
button is clicked: the pass ends with `MENU_EXIT`. -/
theorem MenuGameSaves_load_result_witness :
    (MenuGameSaves_pass 0 (loadClickPoll 1 false false)).1 = MENU_EXIT :=
  (MenuGameSaves_load_result (loadClickPoll 1 false false) FileKind.FILE_SRAM
    (by decide) rfl).2.2.2.1 rfl (by decide)

/-! ### `AutoSave` -/

/-- C11: `AutoSave` acts by `GCSettings.AutoSave`: with 1 it calls
`SaveSRAMAuto(SILENT)` and shows no prompt; with 2 it shows the "Save State?"
prompt and calls `SaveSnapshotAuto` exactly when the prompt returns non-zero;
with 3 it shows its prompt and calls `SaveSRAMAuto` and then `SaveSnapshotAuto`
exactly when the prompt returns non-zero; with any other value it neither
prompts nor saves. -/
theorem AutoSave_by_setting (choice : Int) :
    AutoSave 1 choice = [AutoSaveCall.SaveSRAMAuto true] ∧
    (choice ≠ 0 → AutoSave 2 choice =
      [AutoSaveCall.WindowPrompt "Save State?" choice, AutoSaveCall.SaveSnapshotAuto false]) ∧
    (choice = 0 → AutoSave 2 choice = [AutoSaveCall.WindowPrompt "Save State?" 0]) ∧
    (choice ≠ 0 → AutoSave 3 choice =
      [AutoSaveCall.WindowPrompt "Save SRAM and State?" choice,
       AutoSaveCall.SaveSRAMAuto false, AutoSaveCall.SaveSnapshotAuto false]) ∧
    (choice = 0 → AutoSave 3 choice = [AutoSaveCall.WindowPrompt "Save SRAM and State?" 0]) ∧
    (∀ setting : Int, setting ≠ 1 → setting ≠ 2 → setting ≠ 3 → AutoSave setting choice = []) := by
  refine ⟨rfl, ?_, ?_, ?_, ?_, ?_⟩
  · intro h
    simp [AutoSave, h]
  · intro h
    subst h
    rfl
  · intro h
    simp [AutoSave, h]
  · intro h
    subst h
    rfl
  · intro setting h1 h2 h3
    simp [AutoSave, h1, h2, h3]

/-- Instance of C11: the setting 3 with a confirmed prompt saves SRAM and then
the state; the setting 0 does nothing. -/
theorem AutoSave_by_setting_witness :
    AutoSave 3 1 =
      [AutoSaveCall.WindowPrompt "Save SRAM and State?" 1,
       AutoSaveCall.SaveSRAMAuto false, AutoSaveCall.SaveSnapshotAuto false] ∧
    AutoSave 0 1 = [] :=
  ⟨(AutoSave_by_setting 1).2.2.2.1 (by decide),
   (AutoSave_by_setting 1).2.2.2.2.2 0 (by decide) (by decide) (by decide)⟩

theorem Screen_loop_ne_none (ms : List Menu) :
    ∀ m : Menu, Screen_loop ms = some m → m ≠ MENU_NONE := by
  induction ms with
  | nil => intro m h; simp [Screen_loop] at h
  | cons a as ih =>
    intro m h
    unfold Screen_loop at h
    by_cases ha : a = MENU_NONE
    · rw [if_pos ha] at h
      exact ih m h
    · rw [if_neg ha] at h
      have : a = m := Option.some.inj h
      rw [← this]
      exact ha

/-- Once `lastMenu` is not `MENU_NONE`, the screen loop of `MainMenu` calls
`AutoSave()` no more. -/
theorem MainMenu_autoSaves_later (ps : List ScreenPasses) :
    ∀ s : MainState, s.lastMenu ≠ MENU_NONE → MainMenu_autoSaves ps s = 0 := by
  induction ps with
  | nil =>
    intro s hs
    simp [MainMenu_autoSaves, callsAutoSave, hs]
  | cons p ps ih =>
    intro s hs
    unfold MainMenu_autoSaves
    have hc : callsAutoSave s = false := by simp [callsAutoSave, hs]
    by_cases hcond : MainMenu_cond s = true
    · rw [if_pos hcond, hc]
      cases hl : Screen_loop p.menus with
      | none => simp
      | some m =>
        have hm : m ≠ MENU_NONE := Screen_loop_ne_none p.menus m hl
        simp only [Bool.false_eq_true, if_false, Nat.zero_add]
        exact ih _ hm
    · rw [if_neg hcond]

/-- C12: within one invocation of `MainMenu`, `AutoSave()` is called at most
once, and only when the first screen shown is `MenuGame` (`MainMenu` is entered
with `MENU_GAME`, and `lastMenu` is `MENU_NONE` then); every screen function
returns a menu code other than `MENU_NONE`, so once a screen has returned, a
later `MenuGame` calls `AutoSave()` no more. -/
theorem AutoSave_once_per_MainMenu :
    (∀ (ms : List Menu) (m : Menu), Screen_loop ms = some m → m ≠ MENU_NONE) ∧
    (∀ (menu : Menu) (romSize : Int) (credits : Bool) (ps : List ScreenPasses),
      MainMenu_autoSaves ps (MainMenu_init menu romSize credits) ≤ 1 ∧
      (MainMenu_autoSaves ps (MainMenu_init menu romSize credits) = 1 → menu = MENU_GAME)) ∧
    (∀ (s : MainState) (ps : List ScreenPasses),
      s.lastMenu ≠ MENU_NONE → MainMenu_autoSaves ps s = 0) := by
  refine ⟨fun ms => Screen_loop_ne_none ms, ?_, fun s ps => MainMenu_autoSaves_later ps s⟩
  intro menu romSize credits ps
  have hfirst : ∀ b : Bool, (if b = true then 1 else 0 : Nat) ≤ 1 := by
    intro b; cases b <;> simp
  have hgame : callsAutoSave (MainMenu_init menu romSize credits) = true → menu = MENU_GAME := by
    intro h
    cases menu <;> simp [callsAutoSave, MainMenu_init, screenOf] at h ⊢
  cases ps with
  | nil =>
    unfold MainMenu_autoSaves
    by_cases h : (MainMenu_cond (MainMenu_init menu romSize credits) &&
        callsAutoSave (MainMenu_init menu romSize credits)) = true
    · rw [if_pos h]
      simp only [Bool.and_eq_true] at h
      exact ⟨le_refl 1, fun _ => hgame h.2⟩
    · rw [if_neg h]
      exact ⟨Nat.zero_le 1, fun h0 => absurd h0 (by decide)⟩
  | cons p ps =>
    unfold MainMenu_autoSaves
    by_cases hcond : MainMenu_cond (MainMenu_init menu romSize credits) = true
    · rw [if_pos hcond]
      have hrest : (match Screen_loop p.menus with
          | none => 0
          | some m => MainMenu_autoSaves ps
              (MainMenu_body (MainMenu_init menu romSize credits) ⟨m, p.romSize, p.logoClicked⟩))
          = 0 := by
        cases hl : Screen_loop p.menus with
        | none => rfl
        | some m =>
          exact MainMenu_autoSaves_later ps _ (Screen_loop_ne_none p.menus m hl)
      rw [hrest, Nat.add_zero]
      by_cases hc : callsAutoSave (MainMenu_init menu romSize credits) = true
      · rw [if_pos hc]
        exact ⟨le_refl 1, fun _ => hgame hc⟩
      · rw [if_neg hc]
        exact ⟨Nat.zero_le 1, fun h0 => absurd h0 (by decide)⟩
    · rw [if_neg hcond]
      exact ⟨Nat.zero_le 1, fun h0 => absurd h0 (by decide)⟩

/-- Instance of C12: entered with `MENU_GAME`, the user goes to the game
settings and back to `MenuGame` and then closes the menu: `AutoSave()` is
called once, in the first `MenuGame`. -/
theorem AutoSave_once_per_MainMenu_witness :
    MainMenu_autoSaves
      [⟨[MENU_NONE, MENU_GAMESETTINGS], 1024, false⟩, ⟨[MENU_GAME], 1024, false⟩,
       ⟨[MENU_NONE, MENU_EXIT], 1024, false⟩]
      (MainMenu_init MENU_GAME 1024 false) = 1 ∧
    MENU_GAME = MENU_GAME :=
  ⟨by decide,
   (AutoSave_once_per_MainMenu.2.1 MENU_GAME 1024 false
      [⟨[MENU_NONE, MENU_GAMESETTINGS], 1024, false⟩, ⟨[MENU_GAME], 1024, false⟩,
       ⟨[MENU_NONE, MENU_EXIT], 1024, false⟩]).2 (by decide)⟩

/-! ### `WindowPrompt` -/

theorem WindowPrompt_loop_range (ps : List (Bool × Bool)) :
    ∀ c : Int, WindowPrompt_loop ps = some c → c = 0 ∨ c = 1 := by
  induction ps with
  | nil => intro c h; simp [WindowPrompt_loop] at h
  | cons p ps ih =>
    intro c h
    obtain ⟨b1, b2⟩ := p
    unfold WindowPrompt_loop at h
    cases b1
    · cases b2
      · simp only [Bool.false_eq_true, if_false] at h
        exact ih c h
      · simp only [Bool.false_eq_true, if_false, if_true, Option.some.injEq] at h
        exact Or.inl h.symm
    · simp only [if_true, Option.some.injEq] at h
      exact Or.inr h.symm

/-- The loop of `WindowPrompt` behind passes without a click: the first pass
with a click decides, and button 1 goes first. -/
theorem WindowPrompt_loop_first_click (pre post : List (Bool × Bool)) (btn1 btn2 : Bool)
    (hpre : ∀ q ∈ pre, q = (false, false)) :
    WindowPrompt_loop (pre ++ (btn1, btn2) :: post) =
      if btn1 then some 1 else if btn2 then some 0 else WindowPrompt_loop post := by
  induction pre with
  | nil => rfl
  | cons q qs ih =>
    have hq : q = (false, false) := hpre q (List.mem_cons_self q qs)
    have hqs : ∀ r ∈ qs, r = (false, false) := fun r hr => hpre r (List.mem_cons_of_mem q hr)
    rw [hq, List.cons_append]
    simp only [WindowPrompt_loop, Bool.false_eq_true, if_false]
    exact ih hqs

/-- C13: `WindowPrompt` returns only 0 or 1. Without a main window, or with an
exit or a shutdown requested, it returns 0 at once and makes no window call
(no prompt is appended, the state of the main window is not set). Otherwise
the first pass of its loop with a click decides: 1 when button 1 is clicked
(also when both are), 0 when only button 2 is. So `ErrorPromptRetry` returns 1
for "Retry" and 0 for "Cancel". -/
theorem WindowPrompt_choice (env : GuiEnv) (title msg btn1Label : String)
    (btn2Label : Option String) (passes : List (Bool × Bool)) :
    (∀ (c : Int) (calls : List PromptCall),
      WindowPrompt env title msg btn1Label btn2Label passes = some (c, calls) → c = 0 ∨ c = 1) ∧
    (guiUnavailable env = true →
      WindowPrompt env title msg btn1Label btn2Label passes = some (0, [])) ∧
    (guiUnavailable env = false →
      ∀ (pre post : List (Bool × Bool)) (btn2 : Bool), (∀ q ∈ pre, q = (false, false)) →
        (∃ calls, WindowPrompt env title msg btn1Label btn2Label (pre ++ (true, btn2) :: post) =
          some (1, calls)) ∧
        (∃ calls, WindowPrompt env title msg btn1Label btn2Label (pre ++ (false, true) :: post) =
          some (0, calls)) ∧
        (∃ calls, ErrorPromptRetry env msg (pre ++ (true, btn2) :: post) = some (1, calls)) ∧
        (∃ calls, ErrorPromptRetry env msg (pre ++ (false, true) :: post) = some (0, calls))) := by
  refine ⟨?_, ?_, ?_⟩
  · intro c calls h
    unfold WindowPrompt at h
    by_cases hg : guiUnavailable env = true
    · rw [if_pos hg] at h
      have hc : (0 : Int) = c := congrArg Prod.fst (Option.some.inj h)
      exact Or.inl hc.symm
    · rw [if_neg hg] at h
      cases hl : WindowPrompt_loop passes with
      | none => rw [hl] at h; simp at h
      | some d =>
        rw [hl] at h
        have hc : d = c := congrArg Prod.fst (Option.some.inj h)
        rw [← hc]
        exact WindowPrompt_loop_range passes d hl
  · intro hg
    unfold WindowPrompt
    rw [if_pos hg]
  · intro hg pre post btn2 hpre
    have hg2 : ¬ guiUnavailable env = true := by rw [hg]; decide
    have h1 := WindowPrompt_loop_first_click pre post true btn2 hpre
    have h0 := WindowPrompt_loop_first_click pre post false true hpre
    simp only [if_true, Bool.false_eq_true, if_false] at h1 h0
    refine ⟨?_, ?_, ?_, ?_⟩
    · unfold WindowPrompt
      rw [if_neg hg2, h1]
      exact ⟨_, rfl⟩
    · unfold WindowPrompt
      rw [if_neg hg2, h0]
      exact ⟨_, rfl⟩
    · unfold ErrorPromptRetry WindowPrompt
      rw [if_neg hg2, h1]
      exact ⟨_, rfl⟩
    · unfold ErrorPromptRetry WindowPrompt
      rw [if_neg hg2, h0]
      exact ⟨_, rfl⟩

/-- Instance of C13: with an exit requested the prompt returns 0 at once; with
the windows up, a pass without a click and then a click on "Cancel" alone makes
`ErrorPromptRetry` return 0. -/
theorem WindowPrompt_choice_witness :
    WindowPrompt ⟨true, 1, 0⟩ "Error" "msg" "Retry" (some "Cancel") [(true, false)] =
      some (0, []) ∧
    (∃ calls, ErrorPromptRetry ⟨true, 0, 0⟩ "msg" ([(false, false)] ++ (false, true) :: []) =
      some (0, calls)) :=
  ⟨(WindowPrompt_choice ⟨true, 1, 0⟩ "Error" "msg" "Retry" (some "Cancel")
      [(true, false)]).2.1 (by decide),
   ((WindowPrompt_choice ⟨true, 0, 0⟩ "Error" "msg" "Retry" (some "Cancel") []).2.2 (by decide)
      [(false, false)] [] false (by decide)).2.2.2⟩

/-! ### `MenuSettingsEmulation` -/

theorem MenuSettingsEmulation_pass_g (p : OptionPoll) (st : EmulationScreen) :
    (MenuSettingsEmulation_pass p st).1.g = MenuSettingsEmulation_switch p.ret st.g := by
  unfold MenuSettingsEmulation_pass
  simp only []
  split_ifs <;> rfl

/-- C17: every click on the Region option of `MenuSettingsEmulation`, from a
region in 0..2, leaves `GCSettings.Region` in 0..2 (the next region, 0 behind
2) and sets (`ForceNTSC`, `ForcePAL`) to (false, false) for 0, (true, false)
for 1 and (false, true) for 2; so the two flags are not both set after the
click. -/
theorem MenuSettingsEmulation_region_click (back : Bool) (st : EmulationScreen)
    (h0 : 0 ≤ st.g.Region) (h2 : st.g.Region ≤ 2) :
    (MenuSettingsEmulation_pass ⟨1, back⟩ st).1.g.Region = (st.g.Region + 1) % 3 ∧
    (0 ≤ (MenuSettingsEmulation_pass ⟨1, back⟩ st).1.g.Region ∧
      (MenuSettingsEmulation_pass ⟨1, back⟩ st).1.g.Region ≤ 2) ∧
    ((MenuSettingsEmulation_pass ⟨1, back⟩ st).1.g.Region = 0 →
      (MenuSettingsEmulation_pass ⟨1, back⟩ st).1.g.ForceNTSC = false ∧
      (MenuSettingsEmulation_pass ⟨1, back⟩ st).1.g.ForcePAL = false) ∧
    ((MenuSettingsEmulation_pass ⟨1, back⟩ st).1.g.Region = 1 →
      (MenuSettingsEmulation_pass ⟨1, back⟩ st).1.g.ForceNTSC = true ∧
      (MenuSettingsEmulation_pass ⟨1, back⟩ st).1.g.ForcePAL = false) ∧
    ((MenuSettingsEmulation_pass ⟨1, back⟩ st).1.g.Region = 2 →
      (MenuSettingsEmulation_pass ⟨1, back⟩ st).1.g.ForceNTSC = false ∧
      (MenuSettingsEmulation_pass ⟨1, back⟩ st).1.g.ForcePAL = true) ∧
    ¬ ((MenuSettingsEmulation_pass ⟨1, back⟩ st).1.g.ForceNTSC = true ∧
      (MenuSettingsEmulation_pass ⟨1, back⟩ st).1.g.ForcePAL = true) := by
  rw [MenuSettingsEmulation_pass_g]
  obtain ⟨menu, firstRun, v0, v1, ⟨sat, region, ntsc, pal⟩⟩ := st
  simp only at h0 h2
  interval_cases region <;>
    simp [MenuSettingsEmulation_switch, regionUpdate, regionNext, incr32, wrap32]

/-- Instance of C17: a click at region 2 (PAL) gives region 0 with neither
flag set. -/
theorem MenuSettingsEmulation_region_click_witness :
    (MenuSettingsEmulation_pass ⟨1, false⟩
      ⟨MENU_NONE, false, "Off", "PAL", ⟨0, 2, false, true⟩⟩).1.g.Region = (2 + 1) % 3 :=
  (MenuSettingsEmulation_region_click false
    ⟨MENU_NONE, false, "Off", "PAL", ⟨0, 2, false, true⟩⟩ (by decide) (by decide)).1

/-! ### The overclocking tables of `MenuSettingsHacks` -/

theorem cpuNextLevel_of_range (level : Int) (h0 : 0 ≤ level) (h3 : level ≤ 3) :
    cpuNextLevel level = (level + 1) % 4 := by
  interval_cases level <;> decide

/-- The CPU update sets the level to the next level and, when the switch has a
case for it, the three cycle lengths to the ones of the case. -/
theorem cpuOverclockUpdate_cycles (g : HacksSettings) :
    (cpuOverclockUpdate g).cpuOverclock = cpuNextLevel g.cpuOverclock ∧
    ∀ a : Int × Int × Int, cpuCycleLengths (cpuNextLevel g.cpuOverclock) = some a →
      (cpuOverclockUpdate g).OneClockCycle = a.1 ∧
      (cpuOverclockUpdate g).OneSlowClockCycle = a.2.1 ∧
      (cpuOverclockUpdate g).TwoClockCycles = a.2.2 := by
  unfold cpuOverclockUpdate cpuCycleLengths
  simp only []
  constructor
  · split_ifs <;> rfl
  · intro a ha
    split_ifs at ha ⊢ <;> (cases ha; exact ⟨rfl, rfl, rfl⟩)

theorem cpuCycleLengths_of_range (level : Int) (h0 : 0 ≤ level) (h3 : level ≤ 3) :
    ∃ a, cpuCycleLengths level = some a := by
  interval_cases level <;> simp [cpuCycleLengths]

theorem cpuCycleLengths_isSome (level : Int) (a : Int × Int × Int)
    (h : cpuCycleLengths level = some a) : 0 ≤ level ∧ level ≤ 3 := by
  unfold cpuCycleLengths at h
  split_ifs at h <;> omega

/-- C18: every click on CPU Overclocking in `MenuSettingsHacks`, from a level
in 0..3, takes `GCSettings.cpuOverclock` to the next level (0, 1, 2, 3, 0) and
sets (`OneClockCycle`, `OneSlowClockCycle`, `TwoClockCycles`) to the row of the
new level: (6, 8, 12), (6, 6, 12), (4, 5, 6), (3, 3, 3) for the levels 0..3. In
every row `OneClockCycle ≤ OneSlowClockCycle ≤ TwoClockCycles`, and from a
level to a higher one none of the three lengths grows. -/
theorem MenuSettingsHacks_cpu_click (wii back : Bool) (st : HacksScreen)
    (h0 : 0 ≤ st.g.cpuOverclock) (h3 : st.g.cpuOverclock ≤ 3) :
    (MenuSettingsHacks_pass wii ⟨1, back⟩ st).1.g.cpuOverclock = (st.g.cpuOverclock + 1) % 4 ∧
    cpuCycleLengths (MenuSettingsHacks_pass wii ⟨1, back⟩ st).1.g.cpuOverclock =
      some ((MenuSettingsHacks_pass wii ⟨1, back⟩ st).1.g.OneClockCycle,
            (MenuSettingsHacks_pass wii ⟨1, back⟩ st).1.g.OneSlowClockCycle,
            (MenuSettingsHacks_pass wii ⟨1, back⟩ st).1.g.TwoClockCycles) ∧
    (cpuCycleLengths 0 = some (6, 8, 12) ∧ cpuCycleLengths 1 = some (6, 6, 12) ∧
      cpuCycleLengths 2 = some (4, 5, 6) ∧ cpuCycleLengths 3 = some (3, 3, 3)) ∧
    (∀ (level : Int) (a : Int × Int × Int), cpuCycleLengths level = some a →
      a.1 ≤ a.2.1 ∧ a.2.1 ≤ a.2.2) ∧
    (∀ (j k : Int) (a b : Int × Int × Int), j ≤ k →
      cpuCycleLengths j = some a → cpuCycleLengths k = some b →
      b.1 ≤ a.1 ∧ b.2.1 ≤ a.2.1 ∧ b.2.2 ≤ a.2.2) := by
  have hg : (MenuSettingsHacks_pass wii ⟨1, back⟩ st).1.g = cpuOverclockUpdate st.g := by
    rw [MenuSettingsHacks_pass_g]
    simp [MenuSettingsHacks_switch]
  have hnext := cpuNextLevel_of_range st.g.cpuOverclock h0 h3
  obtain ⟨hlevel, hcyc⟩ := cpuOverclockUpdate_cycles st.g
  refine ⟨?_, ?_, ⟨rfl, rfl, rfl, rfl⟩, ?_, ?_⟩
  · rw [hg, hlevel, hnext]
  · have hr : 0 ≤ cpuNextLevel st.g.cpuOverclock ∧ cpuNextLevel st.g.cpuOverclock ≤ 3 := by
      rw [hnext]
      omega
    obtain ⟨a, ha⟩ := cpuCycleLengths_of_range _ hr.1 hr.2
    obtain ⟨c1, c2, c3⟩ := hcyc a ha
    rw [hg, hlevel, ha, c1, c2, c3]
  · intro level a ha
    unfold cpuCycleLengths at ha
    split_ifs at ha <;> (cases ha; decide)
  · intro j k a b hjk ha hb
    obtain ⟨j0, j3⟩ := cpuCycleLengths_isSome j a ha
    obtain ⟨k0, k3⟩ := cpuCycleLengths_isSome k b hb
    interval_cases j <;> interval_cases k <;>
      simp only [cpuCycleLengths] at ha hb <;>
      first
        | omega
        | (simp at ha hb; obtain ⟨rfl⟩ := ha; obtain ⟨rfl⟩ := hb; decide)

/-- Instance of C18: a click at level 1 gives level 2 with the cycle lengths
4, 5, 6. -/
theorem MenuSettingsHacks_cpu_click_witness :
    (MenuSettingsHacks_pass true ⟨1, false⟩
      ⟨MENU_NONE, false, "None", "Low", "Off", ⟨0, 1, 0, 5823405, 6, 6, 12⟩⟩).1.g.cpuOverclock
      = (1 + 1) % 4 :=
  (MenuSettingsHacks_cpu_click true false
    ⟨MENU_NONE, false, "None", "Low", "Off", ⟨0, 1, 0, 5823405, 6, 6, 12⟩⟩
    (by decide) (by decide)).1

theorem sfxSpeedPerLine_level (k : Int) (h0 : 0 ≤ k) (h6 : k ≤ 6) :
    sfxSpeedPerLine k =
      some (if k = 0 then 5823405 else (417 / 1000 : ℚ) * (20 * (k : ℚ) + 1 / 2) * 10 ^ 6) := by
  interval_cases k <;> simp [sfxSpeedPerLine] <;> norm_num

/-- C19: after a click on SuperFX Overclocking, `Settings.SuperFXSpeedPerLine`
is 5823405 at level 0 and, in exact rational arithmetic,
0.417 * (20k + 0.5) * 10^6 = 8340000 k + 208500 at a level k in 1..6; over the
levels 0..6 the speed grows strictly with the level. -/
theorem MenuSettingsHacks_sfx_speed (wii back : Bool) (st : HacksScreen) :
    ((MenuSettingsHacks_pass wii ⟨0, back⟩ st).1.g.sfxOverclock = 0 →
      (MenuSettingsHacks_pass wii ⟨0, back⟩ st).1.g.SuperFXSpeedPerLine = 5823405) ∧
    (∀ k : Int, 1 ≤ k → k ≤ 6 →
      (MenuSettingsHacks_pass wii ⟨0, back⟩ st).1.g.sfxOverclock = k →
      (MenuSettingsHacks_pass wii ⟨0, back⟩ st).1.g.SuperFXSpeedPerLine =
        (417 / 1000 : ℚ) * (20 * (k : ℚ) + 1 / 2) * 10 ^ 6 ∧
      (417 / 1000 : ℚ) * (20 * (k : ℚ) + 1 / 2) * 10 ^ 6 = 8340000 * (k : ℚ) + 208500) ∧
    (∀ (j k : Int) (a b : ℚ), 0 ≤ j → j < k → k ≤ 6 →
      sfxSpeedPerLine j = some a → sfxSpeedPerLine k = some b → a < b) := by
  have hg : (MenuSettingsHacks_pass wii ⟨0, back⟩ st).1.g = sfxOverclockUpdate wii st.g := by
    rw [MenuSettingsHacks_pass_g]
    simp [MenuSettingsHacks_switch]
  have hlevel := sfxOverclockUpdate_level wii st.g
  have hspeed := sfxOverclockUpdate_speed wii st.g
  refine ⟨?_, ?_, ?_⟩
  · intro h
    rw [hg] at h ⊢
    rw [hlevel] at h
    rw [hspeed, h]
    rfl
  · intro k h1 h6 h
    rw [hg] at h ⊢
    rw [hlevel] at h
    constructor
    · rw [hspeed, h, sfxSpeedPerLine_level k (by omega) h6]
      have hk : k ≠ 0 := by omega
      simp [hk]
    · ring
  · intro j k a b h0 hjk h6 ha hb
    rw [sfxSpeedPerLine_level j h0 (by omega)] at ha
    rw [sfxSpeedPerLine_level k (by omega) h6] at hb
    have hk : k ≠ 0 := by omega
    rw [if_neg hk] at hb
    have hb2 : b = (417 / 1000 : ℚ) * (20 * (k : ℚ) + 1 / 2) * 10 ^ 6 := (Option.some.inj hb).symm
    have hkq : ((j : ℚ) + 1) ≤ (k : ℚ) := by exact_mod_cast hjk
    have hjq : (0 : ℚ) ≤ (j : ℚ) := by exact_mod_cast h0
    by_cases hj : j = 0
    · rw [if_pos hj] at ha
      have ha2 : a = 5823405 := (Option.some.inj ha).symm
      rw [ha2, hb2]
      subst hj
      norm_num at hkq
      nlinarith
    · rw [if_neg hj] at ha
      have ha2 : a = (417 / 1000 : ℚ) * (20 * (j : ℚ) + 1 / 2) * 10 ^ 6 :=
        (Option.some.inj ha).symm
      rw [ha2, hb2]
      nlinarith

/-- Instance of C19 on the Wii build: the click at level 1 gives level 2 and
the speed 0.417 * 40.5e6 = 16888500. -/
theorem MenuSettingsHacks_sfx_speed_witness :
    (MenuSettingsHacks_pass true ⟨0, false⟩
      ⟨MENU_NONE, false, "20 MHz", "None", "Off", ⟨1, 0, 0, 8548500, 6, 8, 12⟩⟩).1.g.SuperFXSpeedPerLine
      = (417 / 1000 : ℚ) * (20 * ((2 : Int) : ℚ) + 1 / 2) * 10 ^ 6 ∧
    (417 / 1000 : ℚ) * (20 * ((2 : Int) : ℚ) + 1 / 2) * 10 ^ 6 = 8340000 * ((2 : Int) : ℚ) + 208500 :=
  (MenuSettingsHacks_sfx_speed true false
    ⟨MENU_NONE, false, "20 MHz", "None", "Off", ⟨1, 0, 0, 8548500, 6, 8, 12⟩⟩).2.1 2
    (by decide) (by decide)
    (by rw [MenuSettingsHacks_pass_g]; decide)

/-! ### `ShowProgress` -/

/-- Behind the clamp to `total`, the test `done/total > 0.99` holds only when
`done` is `total`. -/
theorem nearlyDone_iff (done total : Int) (ht : 0 < total) (hd : done ≤ total) :
    nearlyDone done total = true → done = total := by
  intro h
  unfold nearlyDone at h
  have hq : ((Int.tdiv done total : Int) : ℚ) > 99 / 100 := by simpa using h
  by_contra hne
  have hlt : done < total := lt_of_le_of_ne hd hne
  have hle : Int.tdiv done total ≤ 0 := by
    by_cases h0 : 0 ≤ done
    · rw [Int.tdiv_eq_zero_of_lt h0 hlt]
    · have hneg : 0 ≤ -done := by omega
      have h1 : 0 ≤ Int.tdiv (-done) total := Int.tdiv_nonneg hneg (le_of_lt ht)
      rw [Int.neg_tdiv] at h1
      omega
  have hle2 : ((Int.tdiv done total : Int) : ℚ) ≤ 0 := by exact_mod_cast hle
  linarith

/-- C20 (counterexample): with a main window and no exit requested, but a
shutdown requested, a call with `total = 256*1024` changes nothing:
`showProgress` stays 0 and is not set to 1. -/
theorem ShowProgress_shutdown_requested :
    ShowProgress ⟨true, 0, 1⟩ msgLoading 0 (256 * 1024) progressIdle = (progressIdle, []) ∧
    (ShowProgress ⟨true, 0, 1⟩ msgLoading 0 (256 * 1024) progressIdle).1.showProgress ≠ 1 := by
  constructor
  · rfl
  · decide

/-- C20 (amended): with a main window and neither an exit nor a shutdown
requested, a call of `ShowProgress` with `total < 256*1024` changes nothing,
and a call with `total >= 256*1024` leaves `showProgress = 1`,
`progressTotal = total` and `progressDone = min(done, total)` for every `done`;
the test `done/total > 0.99` never changes the value. -/
theorem ShowProgress_large_only (env : GuiEnv) (msg : List Nat) (done total : Int)
    (v : ProgressVars) (henv : guiUnavailable env = false) :
    (total < 256 * 1024 → ShowProgress env msg done total v = (v, [])) ∧
    (256 * 1024 ≤ total →
      (ShowProgress env msg done total v).1.showProgress = 1 ∧
      (ShowProgress env msg done total v).1.progressTotal = total ∧
      (ShowProgress env msg done total v).1.progressDone = min done total ∧
      (nearlyDone (min done total) total = true → min done total = total)) := by
  have hg : ¬ guiUnavailable env = true := by rw [henv]; decide
  constructor
  · intro ht
    unfold ShowProgress
    rw [if_neg hg, if_pos ht]
  · intro ht
    have hpos : 0 < total := by omega
    have hnot : ¬ total < 256 * 1024 := by omega
    have hclamp : (if done > total then total else done) = min done total := by
      by_cases hd : done > total
      · rw [if_pos hd, min_eq_right (le_of_lt hd)]
      · rw [if_neg hd, min_eq_left (by omega)]
    have hnear : nearlyDone (min done total) total = true → min done total = total :=
      nearlyDone_iff (min done total) total hpos (min_le_right done total)
    unfold ShowProgress
    rw [if_neg hg, if_neg hnot]
    simp only [hclamp]
    refine ⟨trivial, trivial, ?_, hnear⟩
    by_cases hn : nearlyDone (min done total) total = true
    · rw [if_pos hn]
      exact (hnear hn).symm
    · rw [if_neg hn]

/-- Instance of C20 (amended): with the windows up, a call with 300000 of
262144 bytes done leaves `progressDone = min(300000, 262144)`. -/
theorem ShowProgress_large_only_witness :
    (ShowProgress ⟨true, 0, 0⟩ msgLoading 300000 262144 progressIdle).1.progressDone =
      min 300000 262144 :=
  ((ShowProgress_large_only ⟨true, 0, 0⟩ msgLoading 300000 262144 progressIdle (by decide)).2
    (by decide)).2.2.1

/-! ### The persistent state codec -/

/-- Reading back the region table that `Save` writes gives the regions. -/
theorem decodeRegions_encodeRegions (rs : List Region) :
    decodeRegions rs.length (encodeRegions rs) = some rs := by
  induction rs with
  | nil => rfl
  | cons r rs ih =>
    obtain ⟨id, bytes⟩ := r
    simp only [List.length_cons, encodeRegions, decodeRegions]
    have hle : bytes.length ≤ (bytes ++ encodeRegions rs).length := by
      rw [List.length_append]
      exact Nat.le_add_right _ _
    rw [if_pos hle, List.drop_left, ih, List.take_left]
    rfl

/-- A buffer that `Save` wrote validates on a machine of the same layout. -/
theorem validateBuffer_Save (version : Nat) (m prior : MachineState)
    (h : regionLayout m.regions = regionLayout prior.regions) :
    validateBuffer version (Save version m) prior = some m.regions := by
  unfold validateBuffer Save
  simp only [ne_eq, not_true_eq_false, if_false, decodeRegions_encodeRegions, h, if_true]

/-- C14: for every buffer that `Save()` produces, `Load(Save())` reproduces the
saved MachineState and mutable AddressSpace content as they were: loaded on the
machine in any later state (the regions have the same identifiers and sizes),
`Load` succeeds and the state is the saved one. -/
theorem Load_Save_roundtrip (version : Nat) (m prior : MachineState)
    (h : regionLayout m.regions = regionLayout prior.regions) :
    Load version (Save version m) prior = (LoadResult.Ok, m) := by
  unfold Load
  rw [validateBuffer_Save version m prior h]

/-- Instance of C14: a machine of two regions is saved with the bytes 1, 2, 3
and loaded when its bytes are 7, 8, 9. -/
theorem Load_Save_roundtrip_witness :
    Load 5 (Save 5 (smallMachine 1 2 3)) (smallMachine 7 8 9) =
      (LoadResult.Ok, smallMachine 1 2 3) :=
  Load_Save_roundtrip 5 (smallMachine 1 2 3) (smallMachine 7 8 9) (by decide)

/-- C15: `Load` is atomic: when it returns an error the state is the one
before the call; a buffer whose header holds another version than the one
recognised is an error; and the state is changed only when the buffer as a
whole validated, to the regions validated. -/
theorem Load_atomic (version : Nat) (buf : List Nat) (m : MachineState) :
    ((Load version buf m).1 = LoadResult.CorruptOrIncompatible → (Load version buf m).2 = m) ∧
    (∀ (v : Nat) (rest : List Nat), v ≠ version →
      Load version (v :: rest) m = (LoadResult.CorruptOrIncompatible, m)) ∧
    ((Load version buf m).1 = LoadResult.Ok ∨
      (Load version buf m) = (LoadResult.CorruptOrIncompatible, m)) ∧
    ((Load version buf m).1 = LoadResult.Ok →
      ∃ rs, validateBuffer version buf m = some rs ∧ (Load version buf m).2 = ⟨rs⟩ ∧
        regionLayout rs = regionLayout m.regions) := by
  refine ⟨?_, ?_, ?_, ?_⟩
  · intro h
    unfold Load at h ⊢
    cases hv : validateBuffer version buf m with
    | none => rfl
    | some rs => rw [hv] at h; simp at h
  · intro v rest hv
    have hval : validateBuffer version (v :: rest) m = none := by
      unfold validateBuffer
      cases rest with
      | nil => rfl
      | cons n table => simp [hv]
    unfold Load
    rw [hval]
  · unfold Load
    cases validateBuffer version buf m with
    | none => exact Or.inr rfl
    | some rs => exact Or.inl rfl
  · intro h
    unfold Load at h ⊢
    cases hv : validateBuffer version buf m with
    | none => rw [hv] at h; simp at h
    | some rs =>
      refine ⟨rs, rfl, rfl, ?_⟩
      unfold validateBuffer at hv
      split at hv
      · split_ifs at hv
        split at hv
        · exact absurd hv (by simp)
        · split_ifs at hv with hl
          cases hv
          exact hl
      · exact absurd hv (by simp)

/-- Instance of C15: a buffer saved with version 5 and then given the version
6 in its header is rejected by a codec of version 5, and the machine keeps the
bytes 7, 8, 9. -/
theorem Load_atomic_witness :
    Load 5 (6 :: (Save 5 (smallMachine 1 2 3)).tail) (smallMachine 7 8 9) =
      (LoadResult.CorruptOrIncompatible, smallMachine 7 8 9) :=
  (Load_atomic 5 [] (smallMachine 7 8 9)).2.1 6 (Save 5 (smallMachine 1 2 3)).tail (by decide)

/-! ### The PPU/APU timing model -/

/-- C16: for all cycle counts `c1 + c2 = c`, `Advance(c1)` followed by
`Advance(c2)` emits the same event sequence as `Advance(c)`, and ends in the
same state. -/
theorem Advance_split (cfg : TimingConfig) (c1 c2 : Nat) :
    ∀ s : TimingState,
      (Advance cfg (c1 + c2) s).2 =
        (Advance cfg c1 s).2 ++ (Advance cfg c2 (Advance cfg c1 s).1).2 ∧
      (Advance cfg (c1 + c2) s).1 = (Advance cfg c2 (Advance cfg c1 s).1).1 := by
  induction c1 with
  | zero =>
    intro s
    simp [Advance]
  | succ c ih =>
    intro s
    have hadd : c + 1 + c2 = (c + c2) + 1 := by omega
    rw [hadd]
    simp only [Advance]
    obtain ⟨h1, h2⟩ := ih (advanceCycle cfg s).1
    rw [h1, h2, List.append_assoc]
    exact ⟨rfl, rfl⟩

/-- Instance of C16: a frame of 12 cycles advanced as 5 and then 7 cycles
emits the events of the frame advanced at once, with its one frame-complete
event at the end of the third scanline. -/
theorem Advance_split_witness :
    (Advance smallTiming 5 ⟨0, 0, 0⟩).2 ++
        (Advance smallTiming 7 (Advance smallTiming 5 ⟨0, 0, 0⟩).1).2 =
      (Advance smallTiming 12 ⟨0, 0, 0⟩).2 ∧
    (Advance smallTiming 12 ⟨0, 0, 0⟩).2.count TimingEvent.frameComplete = 1 :=
  ⟨((Advance_split smallTiming 5 7 ⟨0, 0, 0⟩).1).symm, by decide⟩

/-! ### `MenuSettingsFile` -/

theorem MenuSettingsFile_pass_g (wii : Bool) (p : OptionPoll) (st : FileScreen)
    (h : p.ret ≥ 0 ∨ st.firstRun = true) :
    (MenuSettingsFile_pass wii p st).1.g =
      MenuSettingsFile_skips wii (MenuSettingsFile_switch p.ret st.g).1 := by
  unfold MenuSettingsFile_pass
  simp only []
  rw [if_pos h]
  split_ifs <;> rfl

/-- The load device behind the skips, from a non-negative device. -/
theorem MenuSettingsFile_skips_load (wii : Bool) (g : FileSettings) (h : 0 ≤ g.LoadMethod) :
    0 ≤ (MenuSettingsFile_skips wii g).LoadMethod ∧
    (MenuSettingsFile_skips wii g).LoadMethod ≤ 6 ∧
    (wii = true →
      (MenuSettingsFile_skips wii g).LoadMethod ≠ DEVICE_SD_SLOTA ∧
      (MenuSettingsFile_skips wii g).LoadMethod ≠ DEVICE_SD_SLOTB ∧
      (MenuSettingsFile_skips wii g).LoadMethod ≠ DEVICE_SD_PORT2) ∧
    (wii = false →
      (MenuSettingsFile_skips wii g).LoadMethod ≠ DEVICE_SD ∧
      (MenuSettingsFile_skips wii g).LoadMethod ≠ DEVICE_USB) := by
  obtain ⟨l, s, al, az⟩ := g
  simp only at h
  by_cases h6 : l ≤ 6
  · interval_cases l <;> cases wii <;>
      simp [MenuSettingsFile_skips, skipDevice, incr32, wrap32, DEVICE_SD, DEVICE_USB,
        DEVICE_DVD, DEVICE_SD_SLOTA, DEVICE_SD_SLOTB, DEVICE_SD_PORT2]
  · have n1 : l ≠ 1 := by omega
    have n2 : l ≠ 2 := by omega
    have n4 : l ≠ 4 := by omega
    have n5 : l ≠ 5 := by omega
    have n6 : l ≠ 6 := by omega
    have g6 : 6 < l := by omega
    cases wii <;>
      simp [MenuSettingsFile_skips, skipDevice, DEVICE_SD, DEVICE_USB,
        DEVICE_DVD, DEVICE_SD_SLOTA, DEVICE_SD_SLOTB, DEVICE_SD_PORT2, n1, n2, n4, n5, n6, g6]

/-- The save device behind the skips, from a non-negative device. -/
theorem MenuSettingsFile_skips_save (wii : Bool) (g : FileSettings) (h : 0 ≤ g.SaveMethod) :
    0 ≤ (MenuSettingsFile_skips wii g).SaveMethod ∧
    (MenuSettingsFile_skips wii g).SaveMethod ≤ 6 ∧
    (MenuSettingsFile_skips wii g).SaveMethod ≠ DEVICE_DVD ∧
    (wii = true →
      (MenuSettingsFile_skips wii g).SaveMethod ≠ DEVICE_SD_SLOTA ∧
      (MenuSettingsFile_skips wii g).SaveMethod ≠ DEVICE_SD_SLOTB ∧
      (MenuSettingsFile_skips wii g).SaveMethod ≠ DEVICE_SD_PORT2) ∧
    (wii = false →
      (MenuSettingsFile_skips wii g).SaveMethod ≠ DEVICE_SD ∧
      (MenuSettingsFile_skips wii g).SaveMethod ≠ DEVICE_USB) := by
  obtain ⟨l, s, al, az⟩ := g
  simp only at h
  by_cases h6 : s ≤ 6
  · interval_cases s <;> cases wii <;>
      simp [MenuSettingsFile_skips, skipDevice, incr32, wrap32, DEVICE_SD, DEVICE_USB,
        DEVICE_DVD, DEVICE_SD_SLOTA, DEVICE_SD_SLOTB, DEVICE_SD_PORT2]
  · have n1 : s ≠ 1 := by omega
    have n2 : s ≠ 2 := by omega
    have n3 : s ≠ 3 := by omega
    have n4 : s ≠ 4 := by omega
    have n5 : s ≠ 5 := by omega
    have n6 : s ≠ 6 := by omega
    have g6 : 6 < s := by omega
    cases wii <;>
      simp [MenuSettingsFile_skips, skipDevice, DEVICE_SD, DEVICE_USB,
        DEVICE_DVD, DEVICE_SD_SLOTA, DEVICE_SD_SLOTB, DEVICE_SD_PORT2,
        n1, n2, n3, n4, n5, n6, g6]

/-- A click leaves the two devices non-negative, when they were and the
increment does not overflow. -/
theorem MenuSettingsFile_switch_nonneg (ret : Int) (g : FileSettings)
    (hl : 0 ≤ g.LoadMethod) (hs : 0 ≤ g.SaveMethod)
    (hl2 : g.LoadMethod < 2147483647) (hs2 : g.SaveMethod < 2147483647) :
    0 ≤ (MenuSettingsFile_switch ret g).1.LoadMethod ∧
    0 ≤ (MenuSettingsFile_switch ret g).1.SaveMethod := by
  have hi : ∀ x : Int, 0 ≤ x → x < 2147483647 → 0 ≤ incr32 x := by
    intro x h0 h1
    unfold incr32 wrap32
    omega
  unfold MenuSettingsFile_switch
  by_cases h0 : ret = 0
  · rw [if_pos h0]
    exact ⟨hi _ hl hl2, hs⟩
  rw [if_neg h0]
  by_cases h1 : ret = 1
  · rw [if_pos h1]
    exact ⟨hl, hi _ hs hs2⟩
  rw [if_neg h1]
  by_cases h2 : ret = 2
  · rw [if_pos h2]
    exact ⟨hl, hs⟩
  rw [if_neg h2]
  by_cases h3 : ret = 3
  · rw [if_pos h3]
    exact ⟨hl, hs⟩
  rw [if_neg h3]
  by_cases h4 : ret = 4
  · rw [if_pos h4]
    exact ⟨hl, hs⟩
  rw [if_neg h4]
  by_cases h5 : ret = 5
  · rw [if_pos h5]
    exact ⟨hl, hs⟩
  rw [if_neg h5]
  by_cases h6 : ret = 6
  · rw [if_pos h6]
    exact ⟨hl, hs⟩
  rw [if_neg h6]
  by_cases h7 : ret = 7
  · rw [if_pos h7]
    exact ⟨hl, hs⟩
  rw [if_neg h7]
  by_cases h8 : ret = 8
  · rw [if_pos h8]
    exact ⟨hl, hs⟩
  rw [if_neg h8]
  by_cases h9 : ret = 9
  · rw [if_pos h9]
    exact ⟨hl, hs⟩
  · rw [if_neg h9]
    exact ⟨hl, hs⟩

/-- C21: with the devices enumerated AUTO = 0, SD, USB, DVD, SD_SLOTA,
SD_SLOTB, SD_PORT2 = 6 and both methods non-negative, behind the skips of a
refresh of `MenuSettingsFile` both `GCSettings.LoadMethod` and
`GCSettings.SaveMethod` lie in 0..6, `SaveMethod` is not `DEVICE_DVD`, on the
Wii build neither method is SD_SLOTA, SD_SLOTB or SD_PORT2, and on the GameCube
build neither is SD or USB. The same holds behind every pass of the loop that
refreshes, the click of the pass included (the methods below `INT_MAX`, where
the increment of a click is defined). -/
theorem MenuSettingsFile_devices (wii : Bool) (g : FileSettings)
    (hl : 0 ≤ g.LoadMethod) (hs : 0 ≤ g.SaveMethod) :
    ((0 ≤ (MenuSettingsFile_skips wii g).LoadMethod ∧
        (MenuSettingsFile_skips wii g).LoadMethod ≤ 6) ∧
      (0 ≤ (MenuSettingsFile_skips wii g).SaveMethod ∧
        (MenuSettingsFile_skips wii g).SaveMethod ≤ 6) ∧
      (MenuSettingsFile_skips wii g).SaveMethod ≠ DEVICE_DVD ∧
      (wii = true →
        ((MenuSettingsFile_skips wii g).LoadMethod ≠ DEVICE_SD_SLOTA ∧
          (MenuSettingsFile_skips wii g).LoadMethod ≠ DEVICE_SD_SLOTB ∧
          (MenuSettingsFile_skips wii g).LoadMethod ≠ DEVICE_SD_PORT2) ∧
        ((MenuSettingsFile_skips wii g).SaveMethod ≠ DEVICE_SD_SLOTA ∧
          (MenuSettingsFile_skips wii g).SaveMethod ≠ DEVICE_SD_SLOTB ∧
          (MenuSettingsFile_skips wii g).SaveMethod ≠ DEVICE_SD_PORT2)) ∧
      (wii = false →
        ((MenuSettingsFile_skips wii g).LoadMethod ≠ DEVICE_SD ∧
          (MenuSettingsFile_skips wii g).LoadMethod ≠ DEVICE_USB) ∧
        ((MenuSettingsFile_skips wii g).SaveMethod ≠ DEVICE_SD ∧
          (MenuSettingsFile_skips wii g).SaveMethod ≠ DEVICE_USB))) ∧
    (∀ (p : OptionPoll) (menu : Menu) (firstRun : Bool),
      (p.ret ≥ 0 ∨ firstRun = true) →
      g.LoadMethod < 2147483647 → g.SaveMethod < 2147483647 →
      (0 ≤ (MenuSettingsFile_pass wii p ⟨menu, firstRun, g⟩).1.g.LoadMethod ∧
        (MenuSettingsFile_pass wii p ⟨menu, firstRun, g⟩).1.g.LoadMethod ≤ 6) ∧
      (0 ≤ (MenuSettingsFile_pass wii p ⟨menu, firstRun, g⟩).1.g.SaveMethod ∧
        (MenuSettingsFile_pass wii p ⟨menu, firstRun, g⟩).1.g.SaveMethod ≤ 6) ∧
      (MenuSettingsFile_pass wii p ⟨menu, firstRun, g⟩).1.g.SaveMethod ≠ DEVICE_DVD ∧
      (wii = true →
        ((MenuSettingsFile_pass wii p ⟨menu, firstRun, g⟩).1.g.LoadMethod ≠ DEVICE_SD_SLOTA ∧
          (MenuSettingsFile_pass wii p ⟨menu, firstRun, g⟩).1.g.LoadMethod ≠ DEVICE_SD_SLOTB ∧
          (MenuSettingsFile_pass wii p ⟨menu, firstRun, g⟩).1.g.LoadMethod ≠ DEVICE_SD_PORT2) ∧
        ((MenuSettingsFile_pass wii p ⟨menu, firstRun, g⟩).1.g.SaveMethod ≠ DEVICE_SD_SLOTA ∧
          (MenuSettingsFile_pass wii p ⟨menu, firstRun, g⟩).1.g.SaveMethod ≠ DEVICE_SD_SLOTB ∧
          (MenuSettingsFile_pass wii p ⟨menu, firstRun, g⟩).1.g.SaveMethod ≠ DEVICE_SD_PORT2)) ∧
      (wii = false →
        ((MenuSettingsFile_pass wii p ⟨menu, firstRun, g⟩).1.g.LoadMethod ≠ DEVICE_SD ∧
          (MenuSettingsFile_pass wii p ⟨menu, firstRun, g⟩).1.g.LoadMethod ≠ DEVICE_USB) ∧
        ((MenuSettingsFile_pass wii p ⟨menu, firstRun, g⟩).1.g.SaveMethod ≠ DEVICE_SD ∧
          (MenuSettingsFile_pass wii p ⟨menu, firstRun, g⟩).1.g.SaveMethod ≠ DEVICE_USB))) := by
  have key : ∀ g' : FileSettings, 0 ≤ g'.LoadMethod → 0 ≤ g'.SaveMethod →
      (0 ≤ (MenuSettingsFile_skips wii g').LoadMethod ∧
        (MenuSettingsFile_skips wii g').LoadMethod ≤ 6) ∧
      (0 ≤ (MenuSettingsFile_skips wii g').SaveMethod ∧
        (MenuSettingsFile_skips wii g').SaveMethod ≤ 6) ∧
      (MenuSettingsFile_skips wii g').SaveMethod ≠ DEVICE_DVD ∧
      (wii = true →
        ((MenuSettingsFile_skips wii g').LoadMethod ≠ DEVICE_SD_SLOTA ∧
          (MenuSettingsFile_skips wii g').LoadMethod ≠ DEVICE_SD_SLOTB ∧
          (MenuSettingsFile_skips wii g').LoadMethod ≠ DEVICE_SD_PORT2) ∧
        ((MenuSettingsFile_skips wii g').SaveMethod ≠ DEVICE_SD_SLOTA ∧
          (MenuSettingsFile_skips wii g').SaveMethod ≠ DEVICE_SD_SLOTB ∧
          (MenuSettingsFile_skips wii g').SaveMethod ≠ DEVICE_SD_PORT2)) ∧
      (wii = false →
        ((MenuSettingsFile_skips wii g').LoadMethod ≠ DEVICE_SD ∧
          (MenuSettingsFile_skips wii g').LoadMethod ≠ DEVICE_USB) ∧
        ((MenuSettingsFile_skips wii g').SaveMethod ≠ DEVICE_SD ∧
          (MenuSettingsFile_skips wii g').SaveMethod ≠ DEVICE_USB)) := by
    intro g' h1 h2
    obtain ⟨l0, l6, lw, lg⟩ := MenuSettingsFile_skips_load wii g' h1
    obtain ⟨s0, s6, sd, sw, sg⟩ := MenuSettingsFile_skips_save wii g' h2
    exact ⟨⟨l0, l6⟩, ⟨s0, s6⟩, sd, fun hw => ⟨lw hw, sw hw⟩, fun hw => ⟨lg hw, sg hw⟩⟩
  refine ⟨key g hl hs, ?_⟩
  intro p menu firstRun hrf hl2 hs2
  rw [MenuSettingsFile_pass_g wii p ⟨menu, firstRun, g⟩ hrf]
  obtain ⟨h1, h2⟩ := MenuSettingsFile_switch_nonneg p.ret g hl hs hl2 hs2
  exact key _ h1 h2

/-- Instance of C21 on the Wii build: with the load device DVD and the save
device USB, a click on Save Device takes the save device over DVD and the
three SD Gecko devices back to Auto (0), and the load device stays DVD (3). -/
theorem MenuSettingsFile_devices_witness :
    (MenuSettingsFile_pass true ⟨1, false⟩ ⟨MENU_NONE, false, ⟨3, 2, 0, 0⟩⟩).1.g =
      ⟨3, 0, 0, 0⟩ ∧
    (MenuSettingsFile_pass true ⟨1, false⟩ ⟨MENU_NONE, false, ⟨3, 2, 0, 0⟩⟩).1.g.SaveMethod ≠
      DEVICE_DVD :=
  ⟨by decide,
   ((MenuSettingsFile_devices true ⟨3, 2, 0, 0⟩ (by decide) (by decide)).2 ⟨1, false⟩ MENU_NONE
      false (by decide) (by decide) (by decide)).2.2.1⟩

/-! ### `MenuSettingsMenu` -/

/-- The language behind a pass with a click on the Language option. -/
theorem MenuSettingsMenu_pass_language (wii back : Bool) (c : LangCodes) (st : MenuScreen) :
    (MenuSettingsMenu_pass wii c ⟨4, back⟩ st).1.g.language = languageNext c st.g.language := by
  unfold MenuSettingsMenu_pass MenuSettingsMenu_switch
  cases wii <;> cases back <;> simp

/-- C22: for every starting value of `GCSettings.language`, after a click on
the Language option of `MenuSettingsMenu` the language is not
`LANG_TRAD_CHINESE`: it is `LANG_KOREAN` when the increment lands on
`LANG_TRAD_CHINESE`, `LANG_JAPANESE` when the increment reaches `LANG_LENGTH`
or more, and the incremented value else. The language codes are those of an
enumeration that ends with `LANG_LENGTH`: Korean and Japanese are not the
traditional Chinese, which is below `LANG_LENGTH`. -/
theorem MenuSettingsMenu_language_click (c : LangCodes)
    (hK : c.LANG_KOREAN ≠ c.LANG_TRAD_CHINESE) (hJ : c.LANG_JAPANESE ≠ c.LANG_TRAD_CHINESE)
    (hL : c.LANG_TRAD_CHINESE < c.LANG_LENGTH) (wii back : Bool) (st : MenuScreen) :
    (MenuSettingsMenu_pass wii c ⟨4, back⟩ st).1.g.language ≠ c.LANG_TRAD_CHINESE ∧
    (incr32 st.g.language = c.LANG_TRAD_CHINESE →
      (MenuSettingsMenu_pass wii c ⟨4, back⟩ st).1.g.language = c.LANG_KOREAN) ∧
    (incr32 st.g.language ≥ c.LANG_LENGTH →
      (MenuSettingsMenu_pass wii c ⟨4, back⟩ st).1.g.language = c.LANG_JAPANESE) ∧
    (incr32 st.g.language ≠ c.LANG_TRAD_CHINESE → incr32 st.g.language < c.LANG_LENGTH →
      (MenuSettingsMenu_pass wii c ⟨4, back⟩ st).1.g.language = incr32 st.g.language) := by
  rw [MenuSettingsMenu_pass_language]
  unfold languageNext
  simp only []
  refine ⟨?_, ?_, ?_, ?_⟩
  · by_cases h1 : incr32 st.g.language = c.LANG_TRAD_CHINESE
    · rw [if_pos h1]
      exact hK
    · rw [if_neg h1]
      by_cases h2 : incr32 st.g.language ≥ c.LANG_LENGTH
      · rw [if_pos h2]
        exact hJ
      · rw [if_neg h2]
        exact h1
  · intro h1
    rw [if_pos h1]
  · intro h2
    have h1 : incr32 st.g.language ≠ c.LANG_TRAD_CHINESE := by omega
    rw [if_neg h1, if_pos h2]
  · intro h1 h2
    have h3 : ¬ incr32 st.g.language ≥ c.LANG_LENGTH := by omega
    rw [if_neg h1, if_neg h3]

/-- Instance of C22 with the language codes of the console: a click at
Chinese (Simplified), 7, skips the traditional Chinese, 8, and gives Korean,
9. -/
theorem MenuSettingsMenu_language_click_witness :
    (MenuSettingsMenu_pass true consoleLanguages ⟨4, false⟩
      ⟨MENU_NONE, false, ⟨0, 0, 80, 40, 7, 0, 0⟩⟩).1.g.language = consoleLanguages.LANG_KOREAN :=
  (MenuSettingsMenu_language_click consoleLanguages (by decide) (by decide) (by decide)
    true false ⟨MENU_NONE, false, ⟨0, 0, 80, 40, 7, 0, 0⟩⟩).2.1 (by decide)

end Snes9xFX
